import Mathlib

/-!
Verification of the incident-detection and reconciliation engine of the
AI-FACTORY repository: the deduplication resolver and status classifier
(`detect_remove_duplicates/agents.py`), the unexpected-empty detector
(`detect_unexpected_empty/agents.py`), the volume-band detector
(`detect_unexpected_volume/agents.py`) and the late-upload detector
(`detect_after_schedule/agents.py`).

The Python record/CV values are embedded as the JSON-like type `J`.
Python floats are modelled as exact fractions (`Frac`): the detector
inputs are JSON documents whose numeric literals and the arithmetic the
detectors perform on them (10% cushions, halves, minute/hour scalings)
are exactly representable, so exact fractions agree with IEEE doubles on
every comparison the code makes on the modelled inputs.  Records are
association lists of string keys to `J` values, mirroring the Python
dicts loaded from JSON.  File-system plumbing (paths, loading the CV
from disk, output writing) is outside the modelled core: detector
functions take the parsed record list, the CV document and the
execution-folder weekday as arguments, exactly as the Python bodies use
them after loading.  All definitions are structurally recursive so that
concrete runs reduce inside the kernel.
-/

/-- Exact fraction with positive denominator (kept positive by every
constructor below); Python float arithmetic is modelled on these. -/
structure Frac where
  num : Int
  den : Int
  deriving DecidableEq

instance : OfNat Frac n := ⟨⟨(n : Int), 1⟩⟩

instance : OfScientific Frac :=
  ⟨fun m b e => if b then ⟨(m : Int), (10 ^ e : Nat)⟩ else ⟨(m * 10 ^ e : Nat), 1⟩⟩

def Frac.ofInt (n : Int) : Frac := ⟨n, 1⟩

def fracEq (a b : Frac) : Bool := a.num * b.den = b.num * a.den

def fracLt (a b : Frac) : Bool := a.num * b.den < b.num * a.den

def fracLe (a b : Frac) : Bool := a.num * b.den ≤ b.num * a.den

def fracAdd (a b : Frac) : Frac := ⟨a.num * b.den + b.num * a.den, a.den * b.den⟩

def fracSub (a b : Frac) : Frac := ⟨a.num * b.den - b.num * a.den, a.den * b.den⟩

def fracMul (a b : Frac) : Frac := ⟨a.num * b.num, a.den * b.den⟩

def fracNeg (a : Frac) : Frac := ⟨-a.num, a.den⟩

/-- Reciprocal, sign moved to the numerator (zero is never inverted by
the modelled code paths: every division site is guarded by a `> 0`
test). -/
def fracInv (a : Frac) : Frac :=
  if a.num < 0 then ⟨-a.den, -a.num⟩ else if a.num = 0 then ⟨0, 1⟩ else ⟨a.den, a.num⟩

def fracDiv (a b : Frac) : Frac := fracMul a (fracInv b)

def fracMax (a b : Frac) : Frac := if fracLt a b then b else a

/-- `math.floor` of a fraction (denominator positive). -/
def fracFloor (a : Frac) : Int := Int.fdiv a.num a.den

/-- Embedded Python/JSON value. -/
inductive J where
  | null : J
  | b : Bool → J
  | i : Int → J
  | f : Frac → J
  | s : String → J
  | arr : List J → J
  | obj : List (String × J) → J

/-- A Python dict record: association list (first binding wins on lookup). -/
abbrev Rec := List (String × J)

/-- Python truthiness (`bool(x)`). -/
def truthy : J → Bool
  | .null => false
  | .b x => x
  | .i n => n ≠ 0
  | .f q => q.num ≠ 0
  | .s str => str ≠ ""
  | .arr xs => !xs.isEmpty
  | .obj kvs => !kvs.isEmpty

/-- Python `a or b`. -/
def orElseVal (a b : J) : J := if truthy a then a else b

/-- Numeric view of a value for Python `==`/`<` (bools compare as 0/1). -/
def asNum : J → Option Frac
  | .b x => some (if x then 1 else 0)
  | .i n => some ⟨n, 1⟩
  | .f q => some q
  | _ => none

mutual
/-- Python `==` on embedded values (numeric types compare by value;
dict equality is approximated order-sensitively, which is only
observable for dict-valued grouping keys, an unhashable-type error in
Python). -/
def pyEqJ : J → J → Bool
  | .null, .null => true
  | .s x, .s y => decide (x = y)
  | .arr xs, .arr ys => pyEqL xs ys
  | .obj xs, .obj ys => pyEqO xs ys
  | a, b =>
    match asNum a, asNum b with
    | some x, some y => fracEq x y
    | _, _ => false

def pyEqL : List J → List J → Bool
  | [], [] => true
  | x :: xs, y :: ys => pyEqJ x y && pyEqL xs ys
  | _, _ => false

def pyEqO : List (String × J) → List (String × J) → Bool
  | [], [] => true
  | (k1, v1) :: xs, (k2, v2) :: ys => decide (k1 = k2) && pyEqJ v1 v2 && pyEqO xs ys
  | _, _ => false
end

theorem pyEqJ_refl (a : J) : pyEqJ a a = true := by
  refine J.rec (motive_1 := fun a => pyEqJ a a = true)
    (motive_2 := fun xs => pyEqL xs xs = true)
    (motive_3 := fun kvs => pyEqO kvs kvs = true)
    (motive_4 := fun kv => pyEqJ kv.2 kv.2 = true)
    ?_ ?_ ?_ ?_ ?_ ?_ ?_ ?_ ?_ ?_ ?_ ?_ a <;> intros <;>
    simp_all [pyEqJ, pyEqL, pyEqO, asNum, fracEq]

/-- Python `str(x)` on embedded values.  Floats/containers get an
approximate rendering: in the modelled inputs those shapes never reach a
string-comparison site. -/
def pyStrJ : J → String
  | .null => "None"
  | .b true => "True"
  | .b false => "False"
  | .i n => toString n
  | .f q => toString q.num ++ "/" ++ toString q.den
  | .s str => str
  | .arr _ => "[...]"
  | .obj _ => "<dict>"

/-- Python exception kinds raised by the modelled conversions. -/
inductive PyErr where
  | valueError : PyErr
  | typeError : PyErr
  deriving DecidableEq

/-- Digit run → value; `none` when empty or a non-digit appears. -/
def digitsToNat : List Char → Option Nat
  | [] => none
  | cs => cs.foldl (fun acc c => match acc with
      | none => none
      | some n => if c.isDigit then some (n * 10 + (c.toNat - 48)) else none)
      (some 0)

/-- ASCII whitespace strip from the left. -/
def dropWsLeft (cs : List Char) : List Char := cs.dropWhile Char.isWhitespace

/-- Python `str.strip()` (structural, so that it reduces in the kernel). -/
def pyStrip (s : String) : String :=
  String.mk ((dropWsLeft ((dropWsLeft s.toList.reverse).reverse)))

def asciiLower (c : Char) : Char :=
  if 'A' ≤ c ∧ c ≤ 'Z' then Char.ofNat (c.toNat + 32) else c

/-- Python `str.lower()` on the ASCII inputs of the pipeline. -/
def pyLower (s : String) : String := String.mk (s.toList.map asciiLower)

/-- Consume `pat` from the front, returning the remainder. -/
def stripPrefixChars : List Char → List Char → Option (List Char)
  | [], cs => some cs
  | _ :: _, [] => none
  | p :: ps, c :: cs => if p = c then stripPrefixChars ps cs else none

def replaceCharsFuel (pat rep : List Char) : Nat → List Char → List Char
  | 0, cs => cs
  | _ + 1, [] => []
  | fuel + 1, c :: cs =>
    match stripPrefixChars pat (c :: cs) with
    | some rest => rep ++ replaceCharsFuel pat rep fuel rest
    | none => c :: replaceCharsFuel pat rep fuel cs

/-- Python `s.replace(pat, rep)` for non-empty `pat` (left-to-right,
non-overlapping). -/
def pyReplace (s pat rep : String) : String :=
  if pat.toList.isEmpty then s
  else String.mk (replaceCharsFuel pat.toList rep.toList s.toList.length s.toList)

def isPrefixOfChars : List Char → List Char → Bool
  | [], _ => true
  | _ :: _, [] => false
  | p :: ps, c :: cs => p = c && isPrefixOfChars ps cs

def isInfixOfChars (pat : List Char) : List Char → Bool
  | [] => pat.isEmpty
  | c :: cs => isPrefixOfChars pat (c :: cs) || isInfixOfChars pat cs

/-- Python `sub in s` on strings (for the non-empty needles the code
tests). -/
def strContains (s sub : String) : Bool := isInfixOfChars sub.toList s.toList

/-- Python `s.split(sep)` for a single-character separator. -/
def splitOnCharAux (ch : Char) : List Char → List Char → List String
  | [], acc => [String.mk acc.reverse]
  | c :: cs, acc =>
    if c = ch then String.mk acc.reverse :: splitOnCharAux ch cs []
    else splitOnCharAux ch cs (c :: acc)

def splitOnChar (s : String) (ch : Char) : List String := splitOnCharAux ch s.toList []

/-- Python `str.split()` with no argument: split on whitespace runs,
dropping empties. -/
def splitWsChars : List Char → List Char → List String
  | [], acc => if acc.isEmpty then [] else [String.mk acc.reverse]
  | c :: cs, acc =>
    if c.isWhitespace then
      if acc.isEmpty then splitWsChars cs []
      else String.mk acc.reverse :: splitWsChars cs []
    else splitWsChars cs (c :: acc)

/-- Python `s.split()`. -/
def splitWs (s : String) : List String := splitWsChars s.toList []

/-- Python `int(str)`: optional surrounding whitespace and sign, then
decimal digits. -/
def pyIntOfString (str : String) : Except PyErr Int :=
  match (pyStrip str).toList with
  | '-' :: cs => match digitsToNat cs with
      | some n => .ok (-(n : Int))
      | none => .error .valueError
  | '+' :: cs => match digitsToNat cs with
      | some n => .ok (n : Int)
      | none => .error .valueError
  | cs => match digitsToNat cs with
      | some n => .ok (n : Int)
      | none => .error .valueError

/-- Python `int(x)` (floats truncate toward zero). -/
def pyInt : J → Except PyErr Int
  | .null => .error .typeError
  | .b x => .ok (if x then 1 else 0)
  | .i n => .ok n
  | .f q => .ok (Int.tdiv q.num q.den)
  | .s str => pyIntOfString str
  | .arr _ => .error .typeError
  | .obj _ => .error .typeError

/-- Decimal-literal parse for Python `float(str)`
(`[sign] digits [. digits]`; exponent forms are absent from the
inputs). -/
def pyFloatOfChars (cs : List Char) : Option Frac :=
  let core : List Char → Option Frac := fun cs =>
    match cs.span Char.isDigit with
    | (intPart, rest) =>
      match rest with
      | [] => (digitsToNat intPart).map (fun n => ⟨(n : Int), 1⟩)
      | '.' :: frac =>
        if frac.all Char.isDigit ∧ (intPart ≠ [] ∨ frac ≠ []) then
          let ip := (digitsToNat intPart).getD 0
          let fp := (digitsToNat frac).getD 0
          some ⟨(ip * 10 ^ frac.length + fp : Nat), (10 ^ frac.length : Nat)⟩
        else none
      | _ => none
  match cs with
  | '-' :: cs => (core cs).map fracNeg
  | '+' :: cs => core cs
  | cs => core cs

/-- Python `float(x)`. -/
def pyFloat : J → Except PyErr Frac
  | .null => .error .typeError
  | .b x => .ok (if x then 1 else 0)
  | .i n => .ok ⟨n, 1⟩
  | .f q => .ok q
  | .s str => match pyFloatOfChars (pyStrip str).toList with
      | some q => .ok q
      | none => .error .valueError
  | .arr _ => .error .typeError
  | .obj _ => .error .typeError

/-- Dict lookup returning `none` when the key is absent (`k in r` /
`r[k]`). -/
def getOpt : Rec → String → Option J
  | [], _ => none
  | (k', v) :: rest, k => if k' = k then some v else getOpt rest k

/-- Python `r.get(k)` (missing key → `None`). -/
def getJ (r : Rec) (k : String) : J := (getOpt r k).getD .null

/-- Python `k in r`. -/
def hasKey (r : Rec) (k : String) : Bool := (getOpt r k).isSome

/-- Python dict update `r[k] = v` / merge `{**r, k: v}` — replaces the
value in place when the key exists (dicts keep first-insertion order),
otherwise appends the binding. -/
def dictSet : Rec → String → J → Rec
  | [], k, v => [(k, v)]
  | (k', v') :: rest, k, v =>
    if k' = k then (k', v) :: rest else (k', v') :: dictSet rest k v

/-- Accessor into a `J` dict (`row.get(k)`; non-dict receivers never
carry the looked-up key in the modelled inputs). -/
def jGetOpt : J → String → Option J
  | .obj kvs, k => getOpt kvs k
  | _, _ => none

/-- Python `row.get(k)` on a `J` value. -/
def jGet (j : J) (k : String) : J := (jGetOpt j k).getD .null

/-- `_safe_get(d, *keys)` (shared helper of the detector modules):
walk nested dicts; `none` stands for "return the supplied default". -/
def safeGet : J → List String → Option J
  | cur, [] => some cur
  | .obj kvs, k :: ks =>
    match getOpt kvs k with
    | some v => safeGet v ks
    | none => none
  | _, _ :: _ => none

/-- Iterating a `J` value as a list (`for row in xs`). -/
def jList : J → List J
  | .arr xs => xs
  | _ => []

/-- Days from 1970-01-01 of a civil date (proleptic Gregorian). -/
def daysFromCivil (y : Int) (m d : Nat) : Int :=
  let y' : Int := if m ≤ 2 then y - 1 else y
  let era : Int := Int.fdiv y' 400
  let yoe : Int := y' - era * 400
  let mp : Nat := (m + 9) % 12
  let doy : Int := (Int.fdiv (153 * mp + 2) 5) + d - 1
  let doe : Int := yoe * 365 + Int.fdiv yoe 4 - Int.fdiv yoe 100 + doy
  era * 146097 + doe - 719468

/-- Python `datetime.weekday()`: Monday = 0 … Sunday = 6 (1970-01-01
was a Thursday). -/
def weekdayOfCivil (y : Int) (m d : Nat) : Nat :=
  ((daysFromCivil y m d + 3) % 7).toNat

/-- `DAY_NAMES` (shared constant of the detector modules). -/
def DAY_NAMES : List String := ["Mon", "Tue", "Wed", "Thu", "Fri", "Sat", "Sun"]

/-- `DAY_NAMES[dt.weekday()]`. -/
def dayName (wd : Nat) : String := DAY_NAMES.getD wd ""

def isLeapYear (y : Int) : Bool := y % 4 = 0 ∧ (y % 100 ≠ 0 ∨ y % 400 = 0)

def daysInMonth (y : Int) (m : Nat) : Nat :=
  if m = 2 then (if isLeapYear y then 29 else 28)
  else if m = 4 ∨ m = 6 ∨ m = 9 ∨ m = 11 then 30 else 31

/-- Exactly `k` leading digits. -/
def takeDigits : Nat → List Char → Option (Nat × List Char)
  | 0, cs => some (0, cs)
  | _ + 1, [] => none
  | k + 1, c :: cs =>
    if c.isDigit then
      (takeDigits k cs).bind (fun (n, rest) =>
        some ((c.toNat - 48) * 10 ^ k + n, rest))
    else none

/-- `datetime.strptime(s, "%Y-%m-%d")`: the whole string must be a
valid zero-padded civil date. -/
def parseDate10 (s : String) : Option (Int × Nat × Nat) := do
  let (y, cs) ← takeDigits 4 s.toList
  match cs with
  | '-' :: cs => do
    let (m, cs) ← takeDigits 2 cs
    match cs with
    | '-' :: cs => do
      let (d, cs) ← takeDigits 2 cs
      if cs = [] ∧ 1 ≤ m ∧ m ≤ 12 ∧ 1 ≤ d ∧ d ≤ daysInMonth (y : Int) m then
        some ((y : Int), m, d)
      else none
    | _ => none
  | _ => none

/-- Wall-clock fields of a parsed timestamp.  `tzOffsetMinutes = none`
models a naive datetime; Python's `.timestamp()` then applies the local
zone, which is UTC in the modelled deployment. -/
structure PyDateTime where
  year : Int
  month : Nat
  day : Nat
  hour : Nat
  minute : Nat
  second : Nat
  tzOffsetMinutes : Option Int
  deriving DecidableEq

/-- Offset suffix `±HH:MM` (the shape produced by the pipeline's
timestamps after the `"Z" → "+00:00"` normalization in the source). -/
def parseOffset : List Char → Option Int
  | sign :: cs =>
    if sign = '+' ∨ sign = '-' then
      match takeDigits 2 cs with
      | none => none
      | some (oh, cs) =>
        match cs with
        | ':' :: cs =>
          match takeDigits 2 cs with
          | none => none
          | some (om, cs) =>
            if cs = [] ∧ oh < 24 ∧ om < 60 then
              some (if sign = '-' then -((oh * 60 + om : Nat) : Int)
                    else ((oh * 60 + om : Nat) : Int))
            else none
        | _ => none
    else none
  | [] => none

/-- Optional `[:SS]` then optional offset, after `HH:MM`. -/
def parseSecondsAndOffset : List Char → Option (Nat × Option Int)
  | [] => some (0, none)
  | ':' :: cs =>
    match takeDigits 2 cs with
    | none => none
    | some (ss, cs) =>
      if ss ≥ 60 then none
      else match cs with
        | [] => some (ss, none)
        | cs => (parseOffset cs).map (fun o => (ss, some o))
  | cs => (parseOffset cs).map (fun o => (0, some o))

/-- `datetime.fromisoformat` on the timestamp shapes the pipeline
produces: `YYYY-MM-DD[{T|space}HH:MM[:SS][±HH:MM]]`. -/
def parseIsoDT (s : String) : Option PyDateTime := do
  let (y, cs) ← takeDigits 4 s.toList
  match cs with
  | '-' :: cs => do
    let (m, cs) ← takeDigits 2 cs
    match cs with
    | '-' :: cs => do
      let (d, cs) ← takeDigits 2 cs
      if 1 ≤ m ∧ m ≤ 12 ∧ 1 ≤ d ∧ d ≤ daysInMonth (y : Int) m then
        match cs with
        | [] => some ⟨(y : Int), m, d, 0, 0, 0, none⟩
        | sep :: cs =>
          if sep = 'T' ∨ sep = ' ' then do
            let (hh, cs) ← takeDigits 2 cs
            match cs with
            | ':' :: cs => do
              let (mi, cs) ← takeDigits 2 cs
              if hh < 24 ∧ mi < 60 then do
                let (ss, off) ← parseSecondsAndOffset cs
                some ⟨(y : Int), m, d, hh, mi, ss, off⟩
              else none
            | _ => none
          else none
      else none
    | _ => none
  | _ => none

/-- `datetime.timestamp()` (epoch seconds; naive values are taken as
UTC, the zone of the modelled deployment). -/
def pyTimestamp (dt : PyDateTime) : Frac :=
  Frac.ofInt (daysFromCivil dt.year dt.month dt.day * 86400
    + (dt.hour * 3600 + dt.minute * 60 + dt.second : Nat)
    - (dt.tzOffsetMinutes.getD 0) * 60)

/-- The `s.replace("Z", "+00:00")` normalization applied before every
`fromisoformat` call in the source. -/
def zToOffset (s : String) : String := pyReplace s "Z" "+00:00"

/-- `str(r.get("status", "")).strip().lower()` (`_status_text`). -/
def statusText (r : Rec) : String :=
  pyLower (pyStrip (pyStrJ ((getOpt r "status").getD (.s ""))))

/-- `_status_is_processed`. -/
def statusIsProcessed (r : Rec) : Bool := decide (statusText r = "processed")

example : pyInt (.s " 42 ") = .ok 42 := rfl
example : pyInt (.s "abc") = .error .valueError := rfl
example : pyInt (.f ⟨-35, 10⟩) = .ok (-3) := rfl
example : pyFloat (.s "2.5") = .ok ⟨25, 10⟩ := rfl
example : weekdayOfCivil 2024 1 1 = 0 := by decide
example : weekdayOfCivil 1970 1 1 = 3 := by decide
example : parseDate10 "2024-02-30" = none := rfl
example : parseIsoDT "2024-01-01T14:00:00+00:00" =
    some ⟨2024, 1, 1, 14, 0, 0, some 0⟩ := rfl
example : statusIsProcessed [("status", .s " Processed ")] = true := rfl
example : pyReplace "07:00:00-09:00:00 UTC" "UTC" "" = "07:00:00-09:00:00 " := rfl
example : strContains "multi_processed (keeper=a)" "multi_processed" = true := rfl

/-- `_ts` (detect_remove_duplicates/agents.py): falsy → 0.0, parse
failure (including non-string receivers of `.replace`) → 0.0. -/
def tsVal (v : J) : Frac :=
  if !truthy v then 0
  else match v with
    | .s str =>
      match parseIsoDT (zToOffset str) with
      | some dt => pyTimestamp dt
      | none => 0
    | _ => 0

/-- The sort key of `_choose_keeper`:
`(int(it.get("rows") or 0), float(it.get("file_size") or 0.0), _ts(it.get("uploaded_at")))`. -/
def keeperKey (r : Rec) : Except PyErr (Int × Frac × Frac) :=
  match pyInt (orElseVal (getJ r "rows") (.i 0)) with
  | .error e => .error e
  | .ok rows =>
    match pyFloat (orElseVal (getJ r "file_size") (.f 0)) with
    | .error e => .error e
    | .ok fs => .ok (rows, fs, tsVal (getJ r "uploaded_at"))

/-- Python `>` on the keeper-key tuples (lexicographic). -/
def keyGt : (Int × Frac × Frac) → (Int × Frac × Frac) → Bool
  | (a1, a2, a3), (b1, b2, b3) =>
    decide (b1 < a1) ||
      (decide (a1 = b1) && (fracLt b2 a2 || (fracEq a2 b2 && fracLt b3 a3)))

/-- Positions of the group members with processed status
(`processed = [it for it in items if _status_is_processed(it)]`;
members are tracked by position, which faithfully renders the `is`
object-identity tests of the source on records loaded from JSON). -/
def processedPos (items : List Rec) : List Nat :=
  (List.range items.length).filter (fun p => statusIsProcessed (items.getD p []))

def bestPosAux (items : List Rec) : Nat → (Int × Frac × Frac) → List Nat → Except PyErr Nat
  | best, _, [] => .ok best
  | best, bk, p :: ps =>
    match keeperKey (items.getD p []) with
    | .error e => .error e
    | .ok k =>
      if keyGt k bk then bestPosAux items p k ps else bestPosAux items best bk ps

/-- `_choose_keeper` over the processed members (Python `max` keeps the
first element whose key no later key strictly exceeds); result is the
keeper's position among `items`. -/
def chooseKeeperPos (items : List Rec) : Except PyErr Nat :=
  match processedPos items with
  | [] => .error .valueError
  | p :: ps =>
    match keeperKey (items.getD p []) with
    | .error e => .error e
    | .ok k => bestPosAux items p k ps

def noProcReason : String := "no_processed (no keeper selected)"

/-- `f"multi_processed (keeper={keeper.get('filename')})"`. -/
def multiProcReason (keeper : Rec) : String :=
  "multi_processed (keeper=" ++ pyStrJ (getJ keeper "filename") ++ ")"

/-- `for it in items: if it is keeper: continue; …` — every member
except the keeper position. -/
def nonKeeperMembers (items : List Rec) (kp : Nat) : List Rec :=
  ((List.range items.length).filter (fun p => p != kp)).map (fun p => items.getD p [])

/-- One duplicate group's contribution to (final, removed, harmless):
the three cases of `MinimalDedupeAgentV2.run`'s group loop. -/
def processGroup (items : List Rec) : Except PyErr (List Rec × List Rec × List Rec) :=
  let proc := processedPos items
  if proc.length = 0 then
    .ok ([], items.map (fun it => dictSet it "dedupe_reason" (.s noProcReason)), [])
  else if 1 < proc.length then
    match chooseKeeperPos items with
    | .error e => .error e
    | .ok kp =>
      let keeper := items.getD kp []
      let reason := multiProcReason keeper
      .ok ([keeper],
        (nonKeeperMembers items kp).map (fun it => dictSet it "dedupe_reason" (.s reason)),
        [])
  else
    let kp := proc.headD 0
    .ok ([items.getD kp []], [], nonKeeperMembers items kp)

/-- `dict.setdefault(k, []).append(i)` over insertion-ordered buckets. -/
def bucketsInsert : List (J × List Nat) → J → Nat → List (J × List Nat)
  | [], k, idx => [(k, [idx])]
  | (k', l) :: rest, k, idx =>
    if pyEqJ k' k then (k', l ++ [idx]) :: rest
    else (k', l) :: bucketsInsert rest k idx

/-- `_group_by`: enumerate the records, skipping `None` keys. -/
def groupIdxFrom (key : Rec → Option J) : Nat → List Rec → List (J × List Nat) → List (J × List Nat)
  | _, [], bs => bs
  | n, r :: rs, bs =>
    match key r with
    | none => groupIdxFrom key (n + 1) rs bs
    | some k => groupIdxFrom key (n + 1) rs (bucketsInsert bs k n)

def groupIdxBy (key : Rec → Option J) (rs : List Rec) : List (J × List Nat) :=
  groupIdxFrom key 0 rs []

/-- Pass-1 key `(r["filename"],) if "filename" in r else None`
(the 1-tuple is represented by its sole component). -/
def filenameKey (r : Rec) : Option J := getOpt r "filename"

/-- Pass-2 key `ck_key`: `None` for falsy `cleaned_filename`, else the
pair `(cleaned_filename, batch or "")` (pairs represented as 2-element
arrays, compared componentwise like Python tuples). -/
def ckKey (r : Rec) : Option J :=
  let cf := getJ r "cleaned_filename"
  if !truthy cf then none
  else some (.arr [cf, orElseVal (getJ r "batch") (.s "")])

/-- Pass-1 buckets of `MinimalDedupeAgentV2.run` (by exact filename). -/
def dedupBuckets1 (records : List Rec) : List (J × List Nat) :=
  groupIdxBy filenameKey records

/-- Pass-1 duplicate groups: buckets of size > 1 (member indices; the
groups' `key_type`/`key_value` metadata is bookkeeping no output
reads). -/
def dedupGroups1 (records : List Rec) : List (List Nat) :=
  ((dedupBuckets1 records).filter (fun bkt => decide (1 < bkt.2.length))).map (·.2)

/-- `remaining_indices`: indices not grouped by pass 1. -/
def dedupRemaining (records : List Rec) : List Nat :=
  (List.range records.length).filter (fun i => !(dedupGroups1 records).flatten.contains i)

/-- The record sub-list pass 2 groups over. -/
def dedupSub (records : List Rec) : List Rec :=
  (dedupRemaining records).map (fun i => records.getD i [])

/-- Pass-2 buckets (by (cleaned_filename, batch)); indices are local to
`dedupRemaining`. -/
def dedupBuckets2 (records : List Rec) : List (J × List Nat) :=
  groupIdxBy ckKey (dedupSub records)

def dedupGroups2loc (records : List Rec) : List (List Nat) :=
  ((dedupBuckets2 records).filter (fun bkt => decide (1 < bkt.2.length))).map (·.2)

/-- Pass-2 duplicate groups mapped back to real indices. -/
def dedupGroups2 (records : List Rec) : List (List Nat) :=
  (dedupGroups2loc records).map (fun g => g.map (fun jdx => (dedupRemaining records).getD jdx 0))

/-- The never-grouped indices, recomputed after both passes. -/
def dedupNonDup (records : List Rec) : List Nat :=
  (List.range records.length).filter
    (fun i => !((dedupGroups1 records).flatten ++ (dedupGroups2 records).flatten).contains i)

/-- Duplicate-group member-index lists (pass 1 then pass 2, in bucket
order) and the never-grouped indices, as computed by
`MinimalDedupeAgentV2.run`. -/
def dedupGroups (records : List Rec) : List (List Nat) × List Nat :=
  (dedupGroups1 records ++ dedupGroups2 records, dedupNonDup records)

/-- The group loop of `MinimalDedupeAgentV2.run`, accumulating each
group's (final, removed, harmless) contributions in order. -/
def runGroups (records : List Rec) : List (List Nat) → Except PyErr (List Rec × List Rec × List Rec)
  | [] => .ok ([], [], [])
  | g :: gs =>
    match processGroup (g.map (fun i => records.getD i [])) with
    | .error e => .error e
    | .ok (fa, ra, ha) =>
      match runGroups records gs with
      | .error e => .error e
      | .ok (fs, rs, hs) => .ok (fa ++ fs, ra ++ rs, ha ++ hs)

/-- The three output partitions of the resolver. -/
structure DedupOut where
  final : List Rec
  removed : List Rec
  harmless : List Rec

/-- `MinimalDedupeAgentV2.run` on the already-loaded record list:
non-duplicates pass straight to `final`, then each duplicate group
contributes per its processed-member count. -/
def dedupRun (records : List Rec) : Except PyErr DedupOut :=
  match runGroups records (dedupGroups records).1 with
  | .error e => .error e
  | .ok (fg, rg, hg) =>
    .ok ⟨((dedupGroups records).2.map (fun i => records.getD i [])) ++ fg, rg, hg⟩

/-- The removed-set identity 4-tuple
`(filename, cleaned_filename, batch, uploaded_at)` (as a 4-element list,
compared componentwise like Python tuples). -/
def key4 (r : Rec) : List J :=
  [getJ r "filename", getJ r "cleaned_filename", getJ r "batch", getJ r "uploaded_at"]

/-- `_removed_reason` of the classifier stage. -/
def removedReason (item : Rec) : String × String :=
  let reason := getJ item "dedupe_reason"
  if truthy reason ∧ strContains (pyStrJ reason) "multi_processed" then
    ("duplicate_multi_processed", "urgent")
  else if truthy reason ∧ strContains (pyStrJ reason) "no_processed" then
    ("duplicate_none_processed", "attention")
  else ("duplicate_unprocessed_copy", "attention")

/-- Annotation of one removed record as a duplicate anomaly. -/
def annotateRemoved (item : Rec) : Rec :=
  let rs := removedReason item
  dictSet (dictSet (dictSet item "incident_type" (.s "duplicate"))
    "incident_reason" (.s rs.1)) "severity" (.s rs.2)

/-- `status_failure` annotation of the classifier sweep. -/
def annotateStatus (r : Rec) : Rec :=
  let status := statusText r
  dictSet (dictSet (dictSet r "incident_type" (.s "status_failure"))
    "incident_reason" (.s ("status=" ++ status)))
    "severity" (.s (if status = "failed" then "urgent" else "attention"))

/-- `flagged_is_duplicated` annotation of the classifier sweep. -/
def annotateFlagged (r : Rec) : Rec :=
  dictSet (dictSet (dictSet r "incident_type" (.s "duplicate"))
    "incident_reason" (.s "flagged_is_duplicated")) "severity" (.s "attention")

/-- The per-original sweep of the status/duplicate-flag classifier
(`main`, detect_remove_duplicates/agents.py): records whose 4-tuple is
in the removed set are skipped; the rest land in anomalies or ok. -/
def classifySweep (removedKeys : List (List J)) : List Rec → List Rec × List Rec
  | [] => ([], [])
  | r :: rest =>
    let tail := classifySweep removedKeys rest
    if removedKeys.any (fun k => pyEqL (key4 r) k) then tail
    else if !decide (statusText r = "processed") then
      (annotateStatus r :: tail.1, tail.2)
    else if truthy (getJ r "is_duplicated") then
      (annotateFlagged r :: tail.1, tail.2)
    else (tail.1, r :: tail.2)

/-- The classifier stage of `main`: run the resolver, turn every removed
record into a duplicate anomaly, then sweep the original records. -/
def dupFailClassify (records : List Rec) : Except PyErr (List Rec × List Rec) :=
  match dedupRun records with
  | .error e => .error e
  | .ok res =>
    let removedKeys := res.removed.map key4
    let sweep := classifySweep removedKeys records
    .ok (res.removed.map annotateRemoved ++ sweep.1, sweep.2)

/-- `s[:10]`. -/
def strTake10 (s : String) : String := String.mk (s.toList.take 10)

/-- `_weekday_from_iso_date` (shared by the empty and volume
detectors). -/
def weekdayFromIsoDate (dateStr : String) : Option String :=
  (parseDate10 (strTake10 dateStr)).map (fun ymd =>
    dayName (weekdayOfCivil ymd.1 ymd.2.1 ymd.2.2))

/-- `_weekday_for_record`: covered_date's weekday if parseable, else
uploaded_at's weekday, else the execution-folder weekday. -/
def weekdayForRecord (r : Rec) (folderWeekday : String) : String :=
  let cd := getJ r "covered_date"
  match (if truthy cd then weekdayFromIsoDate (pyStrJ cd) else none) with
  | some wd => wd
  | none =>
    let ua := getJ r "uploaded_at"
    if truthy ua then
      match parseIsoDT (zToOffset (pyStrJ ua)) with
      | some dt => dayName (weekdayOfCivil dt.year dt.month dt.day)
      | none => folderWeekday
    else folderWeekday

/-- First row whose `str(row.get("day"))` equals the weekday (the
`for row in …` loops return on their first match). -/
def firstRowWithDay (rows : List J) (weekday : String) : Option J :=
  rows.find? (fun row => decide (pyStrJ (jGet row "day") = weekday))

/-- The key loop shared by the `empty_files` stat blocks: first key
whose value is non-null, parseable and > 0 answers `expected`; having
seen some key without a positive answer means `not expected`; no key
at all means unknown. -/
def statLoop (emp : Rec) : List String → Bool → Option Bool
  | [], sawAny => if sawAny then some false else none
  | k :: ks, sawAny =>
    match getOpt emp k with
    | none => statLoop emp ks sawAny
    | some v =>
      let pos := match v with
        | .null => false
        | v => match pyFloat v with
          | .ok q => fracLt 0 q
          | .error _ => false
      if pos then some true else statLoop emp ks true

/-- `_cv_expected_zero_global_weekday` (the volume-characteristics
section's per-weekday `empty_files` block; its key list is
`("mean", "median", "mode", "max")` — no `"min"`). -/
def cvExpectedZeroGlobalWeekday (cv : J) (weekday : String) : Option Bool :=
  match firstRowWithDay
      (jList ((safeGet cv ["volume_characteristics_section", "per_weekday"]).getD (.arr [])))
      weekday with
  | none => none
  | some row =>
    match jGet row "empty_files" with
    | .obj kvs =>
      if kvs.isEmpty then none
      else statLoop kvs ["mean", "median", "mode", "max"] false
    | _ => none

/-- `_cv_expected_zero_entity_weekday`: the first (entity, weekday) row
decides via its `median_empty`. -/
def entityWeekdayRow (cv : J) (entity weekday : String) : Option J :=
  (jList ((safeGet cv ["day_of_week_section_pattern", "entity_weekday"]).getD (.arr []))).find?
    (fun row => decide (pyStrJ (jGet row "entity") = entity) &&
      decide (pyStrJ (jGet row "day") = weekday))

def cvExpectedZeroEntityWeekday (cv : J) (entity weekday : String) : Option Bool :=
  match entityWeekdayRow cv entity weekday with
  | none => none
  | some row =>
    match jGet row "median_empty" with
    | .null => none
    | v =>
      match pyFloat v with
      | .ok q => some (fracLt 0 q)
      | .error _ => none

/-- `_cv_expected_zero_weekday_section4` (day-of-week section's
per-weekday `empty_files`; key list includes `"min"`). -/
def cvExpectedZeroWeekdaySection4 (cv : J) (weekday : String) : Option Bool :=
  match firstRowWithDay
      (jList ((safeGet cv ["day_of_week_section_pattern", "weekday"]).getD (.arr [])))
      weekday with
  | none => none
  | some row =>
    match jGet row "empty_files" with
    | .obj kvs =>
      if kvs.isEmpty then none
      else statLoop kvs ["min", "mean", "median", "mode", "max"] false
    | _ => none

/-- `_cv_global_empty_expected_section2`: first parseable percentage
among `empty`/`empties`/`empty_files` decides; parse failures fall
through to the next key. -/
def sec2Loop (pct : J) : List String → Option Bool
  | [] => none
  | k :: ks =>
    match jGetOpt pct k with
    | none => sec2Loop pct ks
    | some v =>
      match pyFloat v with
      | .ok q => some (fracLt 0 q)
      | .error _ => sec2Loop pct ks

def cvGlobalEmptyExpectedSection2 (cv : J) : Option Bool :=
  sec2Loop ((safeGet cv ["file_processing_pattern_section", "status_percentages"]).getD (.obj []))
    ["empty", "empties", "empty_files"]

/-- `_is_zero_expected`: the four-step fallback chain, short-circuiting
on the first non-unknown answer; default `False`. -/
def isZeroExpected (cv : J) (entity weekday : String) : Bool :=
  match cvExpectedZeroEntityWeekday cv entity weekday with
  | some b => b
  | none =>
    match cvExpectedZeroWeekdaySection4 cv weekday with
    | some b => b
    | none =>
      match cvExpectedZeroGlobalWeekday cv weekday with
      | some b => b
      | none =>
        match cvGlobalEmptyExpectedSection2 cv with
        | some b => b
        | none => false

/-- `_is_empty_candidate`: `rows == 0` (parse failures silently
ignored) or a status of `empty`/`no_data`. -/
def isEmptyCandidate (r : Rec) : Bool :=
  let rows := getJ r "rows"
  let status := pyLower (pyStrip (pyStrJ (orElseVal (getJ r "status") (.s ""))))
  let zeroRows :=
    match rows with
    | .null => false
    | v =>
      match pyInt v with
      | .ok n => decide (n = 0)
      | .error _ => false
  zeroRows || decide (status = "empty") || decide (status = "no_data")

/-- `str(r.get("entity") or "")`. -/
def entityStr (r : Rec) : String := pyStrJ (orElseVal (getJ r "entity") (.s ""))

/-- The `unexpected_empty` annotation. -/
def annotateEmpty (recWeekday : String) (r : Rec) : Rec :=
  dictSet (dictSet (dictSet (dictSet r "incident_type" (.s "unexpected_empty"))
    "incident_reason"
    (.s ("Rows are 0 where empties are not expected on " ++ recWeekday ++ ".")))
    "weekday_utc" (.s recWeekday)) "severity" (.s "attention")

/-- `unexpected_by_entity.get(ent, 0)`. -/
def countsGet : List (String × Nat) → String → Nat
  | [], _ => 0
  | (k', n) :: rest, k => if k' = k then n else countsGet rest k

/-- `unexpected_by_entity[ent] = get(ent, 0) + 1`. -/
def countsInc : List (String × Nat) → String → List (String × Nat)
  | [], k => [(k, 1)]
  | (k', n) :: rest, k =>
    if k' = k then (k', n + 1) :: rest else (k', n) :: countsInc rest k

/-- `urgent_entity_count_threshold` of `UnexpectedEmptyDetectorAgent`. -/
def urgentEntityCountThreshold : Nat := 3

/-- The candidate loop of `UnexpectedEmptyDetectorAgent.run`: expected
candidates go to ok, unexpected ones become attention-level anomalies
while the per-entity counter increments.  Returns
(ok-additions, anomalies, counter). -/
def emptyLoop (cv : J) (folderWd : String) : List Rec → List Rec × List Rec × List (String × Nat)
  | [] => ([], [], [])
  | r :: rest =>
    let tail := emptyLoop cv folderWd rest
    let recWd := weekdayForRecord r folderWd
    if isZeroExpected cv (entityStr r) recWd then
      (r :: tail.1, tail.2.1, tail.2.2)
    else
      (tail.1, annotateEmpty recWd r :: tail.2.1, countsInc tail.2.2 (entityStr r))

/-- `UnexpectedEmptyDetectorAgent.run` (records and CV pre-loaded; the
execution-folder weekday is the last-resort weekday): non-candidates
pass to ok, candidates are classified, then every anomaly of an entity
with more than `urgent_entity_count_threshold` unexpected empties in
this run is upgraded to `urgent`.  Returns (ok, anomalies). -/
def emptyRun (cv : J) (folderWd : String) (records : List Rec) : List Rec × List Rec :=
  let cands := records.filter isEmptyCandidate
  let ok0 := records.filter (fun r => !isEmptyCandidate r)
  let loopRes := emptyLoop cv folderWd cands
  let anoms := loopRes.2.1.map (fun item =>
    if urgentEntityCountThreshold < countsGet loopRes.2.2 (entityStr item) then
      dictSet item "severity" (.s "urgent")
    else item)
  (ok0 ++ loopRes.1, anoms)

/-- Insertion sort for the row-count medians (`vals.sort()`; equal ints
are indistinguishable, so any correct sort matches Python's). -/
def insertSortedInt (x : Int) : List Int → List Int
  | [] => [x]
  | y :: ys => if x ≤ y then x :: y :: ys else y :: insertSortedInt x ys

def sortInts (l : List Int) : List Int := l.foldr insertSortedInt []

/-- `_current_nonzero_rows_median`: median of the parseable positive
row counts (as a float), `none` when there are none. -/
def currentNonzeroRowsMedian (records : List Rec) : Option Frac :=
  let vals := records.filterMap (fun r =>
    match getJ r "rows" with
    | .null => none
    | v =>
      match pyInt v with
      | .ok n => if 0 < n then some n else none
      | .error _ => none)
  if vals.isEmpty then none
  else
    let sorted := sortInts vals
    let m := sorted.length
    let mid := m / 2
    if m % 2 = 1 then some (Frac.ofInt (sorted.getD mid 0))
    else some ⟨sorted.getD (mid - 1) 0 + sorted.getD mid 0, 2⟩

/-- First clause of `_band_from_rows_minmax_median`: min & max present
and parseable with max > 0 give the 10%-cushion band
`[max(0, 0.9·min), 1.1·max]` centered at the median when present
(else the min/max midpoint); every failure falls to the second
clause. -/
def bandTry1 (mn mx md : J) : Option (Frac × Frac × Frac) :=
  match mn, mx with
  | .null, _ => none
  | _, .null => none
  | mn, mx =>
    match pyFloat mn, pyFloat mx with
    | .ok mnf, .ok mxf =>
      if fracLt 0 mxf then
        let lo := fracMax 0 (fracMul (0.9 : Frac) mnf)
        let hi := fracMul (1.1 : Frac) mxf
        match md with
        | .null => some (lo, hi, fracMax 0 (fracDiv (fracAdd mnf mxf) 2))
        | md =>
          match pyFloat md with
          | .ok mdf => some (lo, hi, fracMax 0 mdf)
          | .error _ => none
      else none
    | _, _ => none

/-- Second clause: a positive parseable median alone gives
`[0.5·median, 2·median]`. -/
def bandTry2 (md : J) : Option (Frac × Frac × Frac) :=
  match md with
  | .null => none
  | md =>
    match pyFloat md with
    | .ok mdf =>
      if fracLt 0 mdf then some (fracMul (0.5 : Frac) mdf, fracMul (2.0 : Frac) mdf, mdf)
      else none
    | .error _ => none

/-- `_band_from_rows_minmax_median`. -/
def bandFromRowsMinmaxMedian (rowsBlock : J) : Option (Frac × Frac × Frac) :=
  match rowsBlock with
  | .obj kvs =>
    match bandTry1 (getJ kvs "min") (getJ kvs "max") (getJ kvs "median") with
    | some band => some band
    | none => bandTry2 (getJ kvs "median")
  | _ => none

/-- `_band_from_normal_95`. -/
def bandFromNormal95 (block : J) (medianVal : J) : Option (Frac × Frac × Frac) :=
  match block with
  | .obj kvs =>
    match getJ kvs "lo", getJ kvs "hi" with
    | .null, _ => none
    | _, .null => none
    | lo, hi =>
      match pyFloat lo, pyFloat hi with
      | .ok lof, .ok hif =>
        if fracLe hif 0 then none
        else
          match medianVal with
          | .null => some (fracMax 0 lof, hif, fracMax 0 (fracDiv (fracAdd lof hif) 2))
          | mv =>
            match pyFloat mv with
            | .ok c => some (fracMax 0 lof, hif, fracMax 0 c)
            | .error _ => none
      | _, _ => none
  | _ => none

/-- `_safe_get(cv, "volume_characteristics_section", default={})`. -/
def volumeSection3 (cv : J) : J :=
  (safeGet cv ["volume_characteristics_section"]).getD (.obj [])

/-- `_weekday_row_median_from_section3`. -/
def weekdayRowMedianSection3 (cv : J) (weekday : String) : Option Frac :=
  match firstRowWithDay
      (jList ((safeGet (volumeSection3 cv) ["per_weekday"]).getD (.arr []))) weekday with
  | none => none
  | some row =>
    let rowsBlock := orElseVal (jGet row "rows") (.obj [])
    match jGet rowsBlock "median" with
    | .null => none
    | md =>
      match pyFloat md with
      | .ok q => some q
      | .error _ => none

/-- `daily_total_ratio_flag` default. -/
def dailyTotalRatioFlag : Frac := 20

/-- The per-weekday row-band attempt inside `_expected_band_from_section3`
(first matching row; a failed band construction breaks to the overall
fallback). -/
def rowBandForWeekday (v3 : J) (wd : String) : Option (Frac × Frac × Frac) :=
  match firstRowWithDay (jList ((safeGet v3 ["per_weekday"]).getD (.arr []))) wd with
  | none => none
  | some row => bandFromRowsMinmaxMedian (orElseVal (jGet row "rows") (.obj []))

/-- `_expected_band_from_section3`: per-weekday band (guarded by the
20× daily-total heuristic) then overall `rows_stats`, then overall
`normal_95`. -/
def expectedBandFromSection3 (cv : J) (weekday : Option String)
    (currentPerfileMedian : Option Frac) : Option (Frac × Frac × Frac) :=
  match volumeSection3 cv with
  | .obj v3kvs =>
    let v3 : J := .obj v3kvs
    let perWeekdayPresent := truthy ((safeGet v3 ["presence", "per_weekday_present"]).getD (.b false))
    let overallPresent := truthy ((safeGet v3 ["presence", "overall_present"]).getD (.b false))
    let stepA : Option (Frac × Frac × Frac) :=
      match weekday with
      | some wd =>
        if perWeekdayPresent && wd != "" then
          match currentPerfileMedian with
          | some cur =>
            if fracLt 0 cur then
              match weekdayRowMedianSection3 cv wd with
              | some wdMd =>
                if fracLe dailyTotalRatioFlag (fracDiv wdMd cur) then none
                else rowBandForWeekday v3 wd
              | none => none
            else rowBandForWeekday v3 wd
          | none => rowBandForWeekday v3 wd
        else none
      | none => none
    match stepA with
    | some band => some band
    | none =>
      if overallPresent then
        let overall := (safeGet v3 ["overall"]).getD (.obj [])
        match bandFromRowsMinmaxMedian (orElseVal (jGet overall "rows_stats") (.obj [])) with
        | some band => some band
        | none =>
          let rs := orElseVal (jGet overall "rows_stats") (.obj [])
          let medianVal := match rs with
            | .obj rskvs => getJ rskvs "median"
            | _ => .null
          bandFromNormal95 (orElseVal (jGet overall "normal_95") (.obj [])) medianVal
      else none
  | _ => none

/-- `int(q)` truncation used by the anomaly reason string. -/
def fracTrunc (q : Frac) : Int := Int.tdiv q.num q.den

/-- The `volume_anomaly` annotation. -/
def annotateVolume (r : Rec) (n : Int) (recWd : String) (lo hi center : Frac) : Rec :=
  let r1 := dictSet r "incident_type" (.s "volume_anomaly")
  let r2 := dictSet r1 "incident_reason" (.s ("rows=" ++ toString n ++
    " outside expected band [" ++ toString (fracTrunc lo) ++ ".." ++
    toString (fracTrunc hi) ++ "] (center≈" ++ toString (fracTrunc center) ++ ")"))
  let r3 := dictSet r2 "weekday_utc" (.s recWd)
  let r4 := dictSet r3 "expected_lo" (.f lo)
  let r5 := dictSet r4 "expected_hi" (.f hi)
  let r6 := dictSet r5 "expected_center" (.f center)
  dictSet r6 "severity" (.s "attention")

/-- Per-record judgment of `UnexpectedVolumeVariationAgent.run` (the
precomputed today's-median, overall band and presence flag are passed
in): `.inl` = ok, `.inr` = anomaly. -/
def rowsNumOf (r : Rec) : Option Int :=
  match getJ r "rows" with
  | .null => none
  | v =>
    match pyInt v with
    | .ok n => some n
    | .error _ => none

/-- The band a record is judged against: the per-weekday resolution
when the presence flag and the record weekday allow it, else the
precomputed overall band. -/
def bandChoiceFor (cv : J) (folderWd : String) (currentMedian : Option Frac)
    (overallBand : Option (Frac × Frac × Frac)) (perWeekdayPresent : Bool)
    (r : Rec) : Option (Frac × Frac × Frac) :=
  let recWd := weekdayForRecord r folderWd
  if perWeekdayPresent && recWd != "" then
    match expectedBandFromSection3 cv (some recWd) currentMedian with
    | some band => some band
    | none => overallBand
  else overallBand

def volumeClassify (cv : J) (folderWd : String) (currentMedian : Option Frac)
    (overallBand : Option (Frac × Frac × Frac)) (perWeekdayPresent : Bool)
    (r : Rec) : Rec ⊕ Rec :=
  match rowsNumOf r with
  | none => .inl r
  | some n =>
    if n = 0 then .inl r
    else
      let recWd := weekdayForRecord r folderWd
      let band := bandChoiceFor cv folderWd currentMedian overallBand perWeekdayPresent r
      match band with
      | none => .inl r
      | some (lo, hi, center) =>
        if fracLt (Frac.ofInt n) lo || fracLt hi (Frac.ofInt n) then
          .inr (annotateVolume r n recWd lo hi center)
        else .inl r

/-- The record loop shared by the volume and schedule detectors: ok and
anomalies accumulate in record order. -/
def sweepLoop (classify : Rec → Rec ⊕ Rec) : List Rec → List Rec × List Rec
  | [] => ([], [])
  | r :: rest =>
    let tail := sweepLoop classify rest
    match classify r with
    | .inl okR => (okR :: tail.1, tail.2)
    | .inr an => (tail.1, an :: tail.2)

/-- `UnexpectedVolumeVariationAgent.run` (records and CV pre-loaded):
returns (ok, anomalies). -/
def volumeRun (cv : J) (folderWd : String) (records : List Rec) : List Rec × List Rec :=
  let currentMedian := currentNonzeroRowsMedian records
  let overallBand := expectedBandFromSection3 cv none currentMedian
  let perWeekdayPresent :=
    truthy ((safeGet (volumeSection3 cv) ["presence", "per_weekday_present"]).getD (.b false))
  sweepLoop (volumeClassify cv folderWd currentMedian overallBand perWeekdayPresent) records

/-- `_parse_time_to_minutes` ("HH:MM", "H:MM" or "HH" → minutes since
midnight; the degenerate all-whitespace remainder, an IndexError in
Python, is unreachable on detector inputs and yields `none`). -/
def parseTimeToMinutes (hhmm : J) : Option Int :=
  if !truthy hhmm then none
  else
    let s0 := pyStrip (pyStrJ hhmm)
    let s1 := pyStrip (pyReplace s0 "UTC" "")
    match splitWs s1 with
    | [] => none
    | tok :: _ =>
      if strContains tok ":" then
        match splitOnChar tok ':' with
        | hpart :: mpart :: _ =>
          match pyIntOfString hpart, pyIntOfString mpart with
          | .ok hv, .ok mv =>
            if 0 ≤ hv ∧ hv < 24 ∧ 0 ≤ mv ∧ mv < 60 then some (hv * 60 + mv) else none
          | _, _ => none
        | _ => none
      else
        match pyIntOfString tok with
        | .ok hv => if 0 ≤ hv ∧ hv < 24 then some (hv * 60) else none
        | .error _ => none

/-- `_parse_window_end_minutes`: end of "HH:MM-HH:MM UTC" windows
(en/em dashes normalized), else the single time. -/
def parseWindowEndMinutes (window : J) : Option Int :=
  if !truthy window then none
  else
    let s0 := pyStrip (pyReplace (pyStrJ window) "UTC" "")
    let s1 := pyReplace (pyReplace s0 "–" "-") "—" "-"
    let s2 := if strContains s1 " " then (splitWs s1).headD s1 else s1
    if strContains s2 "-" then
      match splitOnChar s2 '-' with
      | _ :: endPart :: _ => parseTimeToMinutes (.s (pyStrip endPart))
      | _ => none
    else parseTimeToMinutes (.s s2)

/-- Rows of `file_processing_pattern_section.upload_schedule_by_day`. -/
def scheduleRows (cv : J) : List J :=
  jList ((safeGet cv ["file_processing_pattern_section", "upload_schedule_by_day"]).getD (.arr []))

/-- `_schedule_end_minutes_for_weekday`: window end, then median, mode,
mean hour slots of the first matching weekday row. -/
def scheduleEndMinutesForWeekday (cv : J) (weekday : String) : Option Int :=
  match firstRowWithDay (scheduleRows cv) weekday with
  | none => none
  | some row =>
    match parseWindowEndMinutes (jGet row "expected_window_utc") with
    | some e => some e
    | none =>
      match parseTimeToMinutes (jGet row "upload_hour_slot_median_utc") with
      | some e => some e
      | none =>
        match parseTimeToMinutes (jGet row "upload_hour_slot_mode_utc") with
        | some e => some e
        | none => parseTimeToMinutes (jGet row "upload_hour_slot_mean_utc")

/-- `_days_lag_utc`: uploaded date minus covered date in days (wall
dates of the parsed values), `none` when either is missing or
unparseable. -/
def daysLagUtc (coveredDate uploadedAt : J) : Option Int :=
  if !truthy coveredDate ∨ !truthy uploadedAt then none
  else
    match parseDate10 (strTake10 (pyStrJ coveredDate)),
        parseIsoDT (zToOffset (pyStrJ uploadedAt)) with
    | some cymd, some dt =>
      some (daysFromCivil dt.year dt.month dt.day -
        daysFromCivil cymd.1 cymd.2.1 cymd.2.2)
    | _, _ => none

/-- `_lag_mode_for_weekday`. -/
def lagModeForWeekday (cv : J) (weekday : String) : Option Int :=
  match firstRowWithDay (scheduleRows cv) weekday with
  | none => none
  | some row =>
    match jGet row "upload_lag_days_mode" with
    | .null => none
    | v =>
      match pyInt v with
      | .ok n => some n
      | .error _ => none

/-- `_upload_weekday_from_uploaded_at`. -/
def uploadWeekdayFromUploadedAt (uploadedAt : J) (fallback : String) : String :=
  if truthy uploadedAt then
    match parseIsoDT (zToOffset (pyStrJ uploadedAt)) with
    | some dt => dayName (weekdayOfCivil dt.year dt.month dt.day)
    | none => fallback
  else fallback

/-- `_minutes_since_midnight`. -/
def minutesSinceMidnight (uploadedAt : J) : Option Int :=
  if !truthy uploadedAt then none
  else
    match parseIsoDT (zToOffset (pyStrJ uploadedAt)) with
    | some dt => some ((dt.hour * 60 + dt.minute : Nat) : Int)
    | none => none

/-- `late_threshold_minutes = 4 * 60` of
`UploadAfterScheduleDetectorAgent`. -/
def lateThresholdMinutes : Int := 4 * 60

/-- `"%.1f"`-style rendering of the (nonnegative) hour delta: round
half to even at one decimal, as Python's format applies to the exact
values the modelled inputs produce. -/
def fmt1 (q : Frac) : String :=
  let t := fracMul q 10
  let fl := fracFloor t
  let rem := fracSub t (Frac.ofInt fl)
  let n10 : Int :=
    if fracLt rem (0.5 : Frac) then fl
    else if fracLt (0.5 : Frac) rem then fl + 1
    else if fl % 2 = 0 then fl else fl + 1
  toString (Int.fdiv n10 10) ++ "." ++ toString (n10 % 10)

/-- `f"{n:02d}"` for the nonnegative minute fields. -/
def pad2 (n : Int) : String :=
  if 0 ≤ n ∧ n < 10 then "0" ++ toString n else toString n

/-- The `upload_after_schedule` annotation. -/
def annotateSchedule (r : Rec) (uploadMin endMin : Int) (uploadWeekday : String) : Rec :=
  let deltaMin := uploadMin - endMin
  let r1 := dictSet r "incident_type" (.s "upload_after_schedule")
  let r2 := dictSet r1 "incident_reason" (.s ("Uploaded " ++
    fmt1 (fracDiv (Frac.ofInt deltaMin) 60) ++ "h after expected cutoff (" ++
    pad2 (Int.fdiv endMin 60) ++ ":" ++ pad2 (endMin % 60) ++ " UTC) for " ++
    uploadWeekday ++ "."))
  let r3 := dictSet r2 "weekday_upload_utc" (.s uploadWeekday)
  dictSet r3 "severity" (.s "attention")

/-- Per-record judgment of `UploadAfterScheduleDetectorAgent.run`:
`.inl` = ok, `.inr` = anomaly. -/
def scheduleClassify (cv : J) (weekdayFallback : String) (r : Rec) : Rec ⊕ Rec :=
  let ua := getJ r "uploaded_at"
  match minutesSinceMidnight ua with
  | none => .inl r
  | some uploadMin =>
    let uploadWeekday := uploadWeekdayFromUploadedAt ua weekdayFallback
    let lagDays := daysLagUtc (getJ r "covered_date") ua
    let lagMode := lagModeForWeekday cv uploadWeekday
    let skip : Bool :=
      match lagDays with
      | none => false
      | some ld =>
        match lagMode with
        | some lm => decide (1 < (ld - lm).natAbs)
        | none => decide (1 < ld)
    if skip then .inl r
    else
      match scheduleEndMinutesForWeekday cv uploadWeekday with
      | none => .inl r
      | some endMin =>
        if endMin + lateThresholdMinutes < uploadMin then
          .inr (annotateSchedule r uploadMin endMin uploadWeekday)
        else .inl r

/-- `UploadAfterScheduleDetectorAgent.run` (records and CV pre-loaded):
returns (ok, anomalies). -/
def scheduleRun (cv : J) (weekdayFallback : String) (records : List Rec) : List Rec × List Rec :=
  sweepLoop (scheduleClassify cv weekdayFallback) records

theorem pyEqL_refl (l : List J) : pyEqL l l = true := by
  induction l with
  | nil => rfl
  | cons x xs ih => simp [pyEqL, pyEqJ_refl, ih]

theorem getOpt_dictSet_self (r : Rec) (k : String) (v : J) :
    getOpt (dictSet r k v) k = some v := by
  induction r with
  | nil => simp [dictSet, getOpt]
  | cons kv rest ih =>
    by_cases h : kv.1 = k
    · simp [dictSet, getOpt, h]
    · simpa [dictSet, getOpt, h] using ih

theorem getOpt_dictSet_ne (r : Rec) (k k' : String) (v : J) (h : k' ≠ k) :
    getOpt (dictSet r k v) k' = getOpt r k' := by
  have h2 : ¬ k = k' := fun hh => h (Eq.symm hh)
  induction r with
  | nil => simp [dictSet, getOpt, h2]
  | cons kv rest ih =>
    by_cases hk : kv.1 = k
    · simp [dictSet, getOpt, hk, h2]
    · by_cases hk' : kv.1 = k' <;> simp [dictSet, getOpt, hk, hk', h, ih]

theorem getJ_dictSet_self (r : Rec) (k : String) (v : J) :
    getJ (dictSet r k v) k = v := by
  simp [getJ, getOpt_dictSet_self]

theorem getJ_dictSet_ne (r : Rec) (k k' : String) (v : J) (h : k' ≠ k) :
    getJ (dictSet r k v) k' = getJ r k' := by
  simp [getJ, getOpt_dictSet_ne _ _ _ _ h]

/-- C4 failing input: a duplicate group (same filename) with two
processed members, one carrying a non-numeric `rows` string. -/
def c4recA : Rec := [("filename", .s "a.csv"), ("status", .s "processed"), ("rows", .i 10)]

def c4recB : Rec := [("filename", .s "a.csv"), ("status", .s "processed"), ("rows", .s "abc")]

/-- C4: the spec's fail-open policy says a malformed field (a
non-numeric `rows` string) must be treated as unknown and never raise:
but the dedup resolver's keeper selection evaluates `int(rows or 0)`
unguarded, so on a multi-processed duplicate group containing a
non-numeric rows string the whole run raises ValueError — while the
empty detector's candidate test swallows the same malformed value
silently, as the spec describes. -/
theorem dedupRun_raises_on_nonnumeric_rows :
    dedupRun [c4recA, c4recB] = .error .valueError ∧
    isEmptyCandidate [("rows", .s "abc"), ("status", .s "processed")] = false :=
  ⟨rfl, rfl⟩

/-- Whether the candidate loop flags a record (the negation of the
expectation chain's answer). -/
def emptyFlagged (cv : J) (fwd : String) (r : Rec) : Bool :=
  !isZeroExpected cv (entityStr r) (weekdayForRecord r fwd)

theorem emptyLoop_ok (cv : J) (fwd : String) (l : List Rec) :
    (emptyLoop cv fwd l).1 = l.filter (fun r => !emptyFlagged cv fwd r) := by
  induction l with
  | nil => rfl
  | cons r rest ih =>
    by_cases h : isZeroExpected cv (entityStr r) (weekdayForRecord r fwd) <;>
      simp [emptyLoop, emptyFlagged, h, ih]

theorem emptyLoop_anoms (cv : J) (fwd : String) (l : List Rec) :
    (emptyLoop cv fwd l).2.1 = (l.filter (emptyFlagged cv fwd)).map
      (fun r => annotateEmpty (weekdayForRecord r fwd) r) := by
  induction l with
  | nil => rfl
  | cons r rest ih =>
    by_cases h : isZeroExpected cv (entityStr r) (weekdayForRecord r fwd) <;>
      simp [emptyLoop, emptyFlagged, h, ih]

theorem countsGet_countsInc (c : List (String × Nat)) (k k' : String) :
    countsGet (countsInc c k) k' = countsGet c k' + (if k = k' then 1 else 0) := by
  induction c with
  | nil => by_cases h : k = k' <;> simp [countsInc, countsGet, h]
  | cons kv rest ih =>
    by_cases h1 : kv.1 = k
    · by_cases h2 : k = k' <;> simp [countsInc, countsGet, h1, h2]
    · by_cases h2 : kv.1 = k'
      · have h3 : ¬ k' = k := fun hh => h1 (by rw [h2, hh])
        have h4 : ¬ k = k' := fun hh => h3 (Eq.symm hh)
        simp [countsInc, countsGet, h1, h2, h3, h4]
      · simp [countsInc, countsGet, h1, h2, ih]

theorem emptyLoop_counts (cv : J) (fwd : String) (l : List Rec) (e : String) :
    countsGet (emptyLoop cv fwd l).2.2 e =
      l.countP (fun r => emptyFlagged cv fwd r && decide (entityStr r = e)) := by
  induction l with
  | nil => rfl
  | cons r rest ih =>
    by_cases h : isZeroExpected cv (entityStr r) (weekdayForRecord r fwd)
    · simp [emptyLoop, emptyFlagged, h, ih, List.countP_cons]
    · simp [emptyLoop, emptyFlagged, h, ih, List.countP_cons, countsGet_countsInc]

theorem emptyRun_ok_eq (cv : J) (fwd : String) (records : List Rec) :
    (emptyRun cv fwd records).1 =
      records.filter (fun r => !isEmptyCandidate r) ++
        (emptyLoop cv fwd (records.filter isEmptyCandidate)).1 := rfl

theorem emptyRun_anoms_eq (cv : J) (fwd : String) (records : List Rec) :
    (emptyRun cv fwd records).2 =
      (emptyLoop cv fwd (records.filter isEmptyCandidate)).2.1.map (fun item =>
        if urgentEntityCountThreshold <
            countsGet (emptyLoop cv fwd (records.filter isEmptyCandidate)).2.2
              (entityStr item) then
          dictSet item "severity" (.s "urgent")
        else item) := rfl

theorem getJ_entity_annotateEmpty (wd : String) (r : Rec) :
    getJ (annotateEmpty wd r) "entity" = getJ r "entity" := by
  unfold annotateEmpty
  rw [getJ_dictSet_ne _ _ _ _ (by decide), getJ_dictSet_ne _ _ _ _ (by decide),
    getJ_dictSet_ne _ _ _ _ (by decide), getJ_dictSet_ne _ _ _ _ (by decide)]

theorem entityStr_annotateEmpty (wd : String) (r : Rec) :
    entityStr (annotateEmpty wd r) = entityStr r := by
  unfold entityStr
  rw [getJ_entity_annotateEmpty]

theorem entityStr_dictSet_severity (r : Rec) (v : J) :
    entityStr (dictSet r "severity" v) = entityStr r := by
  unfold entityStr
  rw [getJ_dictSet_ne _ _ _ _ (by decide)]

theorem getJ_severity_annotateEmpty (wd : String) (r : Rec) :
    getJ (annotateEmpty wd r) "severity" = .s "attention" := by
  unfold annotateEmpty
  rw [getJ_dictSet_self]

/-- C5: for an empty candidate whose (entity, weekday) row exists in the
CV's entity×weekday table with a non-null parseable `median_empty`: a
positive value (e.g. 2) makes the chain's first step answer "expected"
and the record passes to ok, while a non-positive value (e.g. 0) makes
that same step answer "not expected" — short-circuiting the fallback
chain — and the record is flagged as an `unexpected_empty` anomaly. -/
theorem emptyRun_entity_weekday_median (cv : J) (fwd : String) (records : List Rec)
    (r : Rec) (row v : J) (q : Frac)
    (hmem : r ∈ records) (hcand : isEmptyCandidate r = true)
    (hrow : entityWeekdayRow cv (entityStr r) (weekdayForRecord r fwd) = some row)
    (hv : jGet row "median_empty" = v) (hvn : v ≠ .null)
    (hq : pyFloat v = .ok q) :
    (fracLt 0 q = true → r ∈ (emptyRun cv fwd records).1) ∧
    (fracLt 0 q = false →
      annotateEmpty (weekdayForRecord r fwd) r ∈ (emptyRun cv fwd records).2 ∨
      dictSet (annotateEmpty (weekdayForRecord r fwd) r) "severity" (.s "urgent") ∈
        (emptyRun cv fwd records).2) := by
  have hans : cvExpectedZeroEntityWeekday cv (entityStr r) (weekdayForRecord r fwd) =
      some (fracLt 0 q) := by
    unfold cvExpectedZeroEntityWeekday
    rw [hrow]
    cases v <;> simp_all
  have hzero : isZeroExpected cv (entityStr r) (weekdayForRecord r fwd) = fracLt 0 q := by
    unfold isZeroExpected
    rw [hans]
  constructor
  · intro hpos
    rw [emptyRun_ok_eq]
    refine List.mem_append_right _ ?_
    rw [emptyLoop_ok]
    refine List.mem_filter.mpr ⟨List.mem_filter.mpr ⟨hmem, hcand⟩, ?_⟩
    simp [emptyFlagged, hzero, hpos]
  · intro hneg
    have hflag : emptyFlagged cv fwd r = true := by simp [emptyFlagged, hzero, hneg]
    rw [emptyRun_anoms_eq]
    have hitem : annotateEmpty (weekdayForRecord r fwd) r ∈
        (emptyLoop cv fwd (records.filter isEmptyCandidate)).2.1 := by
      rw [emptyLoop_anoms]
      exact List.mem_map_of_mem _
        (List.mem_filter.mpr ⟨List.mem_filter.mpr ⟨hmem, hcand⟩, hflag⟩)
    have hmapped := List.mem_map_of_mem (fun item =>
      if urgentEntityCountThreshold <
          countsGet (emptyLoop cv fwd (records.filter isEmptyCandidate)).2.2
            (entityStr item) then
        dictSet item "severity" (.s "urgent")
      else item) hitem
    by_cases hesc : urgentEntityCountThreshold <
        countsGet (emptyLoop cv fwd (records.filter isEmptyCandidate)).2.2
          (entityStr (annotateEmpty (weekdayForRecord r fwd) r))
    · right
      simpa [hesc] using hmapped
    · left
      simpa [hesc] using hmapped

/-- The CV of the spec's C5 scenario: one entity×weekday row for
(Shop, Mon) with the given `median_empty`. -/
def c5cv (me : Int) : J := .obj [("day_of_week_section_pattern", .obj [
  ("entity_weekday", .arr [.obj [("entity", .s "Shop"), ("day", .s "Mon"),
    ("median_empty", .i me)]])])]

/-- A Monday rows-0 record for entity Shop. -/
def c5rec : Rec := [("filename", .s "f.csv"), ("entity", .s "Shop"), ("rows", .i 0),
  ("covered_date", .s "2024-01-01")]

/-- Witness for C5 at the spec's concrete scenario: median_empty = 2
keeps the record in ok, median_empty = 0 flags it. -/
theorem emptyRun_entity_weekday_median_witness :
    c5rec ∈ (emptyRun (c5cv 2) "Tue" [c5rec]).1 ∧
    (annotateEmpty (weekdayForRecord c5rec "Tue") c5rec ∈ (emptyRun (c5cv 0) "Tue" [c5rec]).2 ∨
      dictSet (annotateEmpty (weekdayForRecord c5rec "Tue") c5rec) "severity" (.s "urgent") ∈
        (emptyRun (c5cv 0) "Tue" [c5rec]).2) :=
  ⟨(emptyRun_entity_weekday_median (c5cv 2) "Tue" [c5rec] c5rec _ (.i 2) ⟨2, 1⟩
      (by simp) rfl rfl rfl (fun h => by cases h) rfl).1 rfl,
    (emptyRun_entity_weekday_median (c5cv 0) "Tue" [c5rec] c5rec _ (.i 0) ⟨0, 1⟩
      (by simp) rfl rfl rfl (fun h => by cases h) rfl).2 rfl⟩

/-- CV whose per-weekday `empty_files` block for Monday has `min` as its
only key (min = 1 > 0). -/
def c6cvMin : J := .obj [("volume_characteristics_section", .obj [
  ("per_weekday", .arr [.obj [("day", .s "Mon"), ("empty_files", .obj [("min", .i 1)])]])])]

/-- A Monday rows-0 candidate. -/
def c6rec : Rec := [("filename", .s "f.csv"), ("entity", .s "Shop"), ("rows", .i 0),
  ("covered_date", .s "2024-01-01")]

/-- C6 counterexample: step 3 of the expectation chain ignores the
`min` key — on a per-weekday `empty_files` block whose only key is
`min` with min = 1 > 0 the step answers unknown (`none`), not
"expected", and with nothing else in the CV the Monday rows-0 candidate
IS flagged; the claim predicts "expected" and no flag. -/
theorem cvExpectedZeroGlobalWeekday_min_only :
    cvExpectedZeroGlobalWeekday c6cvMin "Mon" = none ∧
    (emptyRun c6cvMin "Tue" [c6rec]).2.length = 1 := ⟨rfl, rfl⟩

/-- One key's contribution in a stat-block loop: present, non-null,
parseable and positive. -/
def statKeyPos (emp : Rec) (k : String) : Bool :=
  match getOpt emp k with
  | none => false
  | some .null => false
  | some v =>
    match pyFloat v with
    | .ok q => fracLt 0 q
    | .error _ => false

theorem statLoop_spec (emp : Rec) (ks : List String) (saw : Bool) :
    statLoop emp ks saw =
      (if ks.any (statKeyPos emp) then some true
       else if (saw || ks.any (fun k => hasKey emp k)) then some false
       else none) := by
  induction ks generalizing saw with
  | nil => cases saw <;> simp [statLoop]
  | cons k ks ih =>
    cases hg : getOpt emp k with
    | none =>
      have h1 : statKeyPos emp k = false := by simp [statKeyPos, hg]
      have h2 : hasKey emp k = false := by simp [hasKey, hg]
      simp [statLoop, hg, h1, h2, ih]
    | some v =>
      have h2 : hasKey emp k = true := by simp [hasKey, hg]
      cases hp : statKeyPos emp k with
      | true =>
        have : statLoop emp (k :: ks) saw = some true := by
          rw [statLoop, hg]
          revert hp
          unfold statKeyPos
          rw [hg]
          cases v <;> simp_all
        simp [this, hp]
      | false =>
        have : statLoop emp (k :: ks) saw = statLoop emp ks true := by
          rw [statLoop, hg]
          revert hp
          unfold statKeyPos
          rw [hg]
          cases v <;> simp_all
        rw [this, ih]
        cases hany : ks.any (statKeyPos emp) <;> simp [hp, h2, hany]

/-- C6 (amended): step 3 (`_cv_expected_zero_global_weekday`) applies
the step-2 logic restricted to the keys {mean, median, mode, max}:
some such key positive ⇒ expected; some such key present but none
positive ⇒ explicitly not expected; none of those keys (in particular a
block whose only key is `min`) ⇒ unknown, and the chain continues. -/
theorem cvExpectedZeroGlobalWeekday_spec (cv : J) (wd : String) (row : J) (kvs : Rec)
    (hrow : firstRowWithDay
      (jList ((safeGet cv ["volume_characteristics_section", "per_weekday"]).getD (.arr [])))
      wd = some row)
    (hemp : jGet row "empty_files" = .obj kvs) (hne : kvs ≠ []) :
    cvExpectedZeroGlobalWeekday cv wd =
      (if (["mean", "median", "mode", "max"] : List String).any (statKeyPos kvs) then
        some true
       else if (["mean", "median", "mode", "max"] : List String).any
          (fun k => hasKey kvs k) then some false
       else none) := by
  unfold cvExpectedZeroGlobalWeekday
  simp only [hrow, hemp]
  have hie : kvs.isEmpty = false := by simpa [List.isEmpty_iff] using hne
  simp [hie, statLoop_spec]

/-- CV whose per-weekday `empty_files` block for Monday has `mean` as
its only key. -/
def c6cvMean : J := .obj [("volume_characteristics_section", .obj [
  ("per_weekday", .arr [.obj [("day", .s "Mon"), ("empty_files", .obj [("mean", .i 1)])]])])]

/-- Witness for the amended C6 on a concrete block `{mean: 1}`. -/
theorem cvExpectedZeroGlobalWeekday_spec_witness :
    cvExpectedZeroGlobalWeekday c6cvMean "Mon" =
      (if (["mean", "median", "mode", "max"] : List String).any
          (statKeyPos [("mean", J.i 1)]) then some true
       else if (["mean", "median", "mode", "max"] : List String).any
          (fun k => hasKey [("mean", J.i 1)] k) then some false
       else none) :=
  cvExpectedZeroGlobalWeekday_spec c6cvMean "Mon" _ [("mean", J.i 1)] rfl rfl (by simp)

/-- C7: with N the number of flagged empty candidates of entity `e` in
one run — if N = 4 (strictly above the threshold 3), every
unexpected-empty anomaly of that entity carries severity `urgent`; if
N = 3, every such anomaly keeps severity `attention`. -/
theorem emptyRun_escalation_threshold (cv : J) (fwd : String) (records : List Rec)
    (e : String) :
    ((records.filter isEmptyCandidate).countP
        (fun r => emptyFlagged cv fwd r && decide (entityStr r = e)) = 4 →
      ∀ a ∈ (emptyRun cv fwd records).2, entityStr a = e →
        getJ a "severity" = .s "urgent") ∧
    ((records.filter isEmptyCandidate).countP
        (fun r => emptyFlagged cv fwd r && decide (entityStr r = e)) = 3 →
      ∀ a ∈ (emptyRun cv fwd records).2, entityStr a = e →
        getJ a "severity" = .s "attention") := by
  have main : ∀ nval, (records.filter isEmptyCandidate).countP
      (fun r => emptyFlagged cv fwd r && decide (entityStr r = e)) = nval →
      ∀ a ∈ (emptyRun cv fwd records).2, entityStr a = e →
        getJ a "severity" = (if 3 < nval then J.s "urgent" else J.s "attention") := by
    intro nval hn a ha hae
    rw [emptyRun_anoms_eq] at ha
    obtain ⟨item, hitem, hai⟩ := List.mem_map.mp ha
    rw [emptyLoop_anoms] at hitem
    obtain ⟨r, _hrmem, hri⟩ := List.mem_map.mp hitem
    have hentA : entityStr a = entityStr item := by
      rw [← hai]
      by_cases hesc : urgentEntityCountThreshold <
          countsGet (emptyLoop cv fwd (records.filter isEmptyCandidate)).2.2
            (entityStr item)
      · simp [hesc, entityStr_dictSet_severity]
      · simp [hesc]
    have hentE : entityStr item = e := by rw [← hentA, hae]
    have hcnt : countsGet (emptyLoop cv fwd (records.filter isEmptyCandidate)).2.2
        (entityStr item) = nval := by
      rw [hentE, emptyLoop_counts, hn]
    by_cases hesc : 3 < nval
    · have hesc' : urgentEntityCountThreshold <
          countsGet (emptyLoop cv fwd (records.filter isEmptyCandidate)).2.2
            (entityStr item) := by
        rw [hcnt]; exact hesc
      rw [← hai]
      simp [hesc', getJ_dictSet_self, hesc]
    · have hesc' : ¬ (urgentEntityCountThreshold <
          countsGet (emptyLoop cv fwd (records.filter isEmptyCandidate)).2.2
            (entityStr item)) := by
        rw [hcnt]; exact hesc
      rw [← hai]
      simp only [if_neg hesc']
      rw [← hri, getJ_severity_annotateEmpty]
      simp [hesc]
  exact ⟨fun hn a ha hae => by simpa using main 4 hn a ha hae,
    fun hn a ha hae => by simpa using main 3 hn a ha hae⟩

/-- Four identical-entity Monday rows-0 records. -/
def c7rec (i : Nat) : Rec := [("filename", .s (toString i)), ("entity", .s "E"),
  ("rows", .i 0), ("covered_date", .s "2024-01-01")]

/-- Witness for C7: with an empty CV (nothing is expected), 4 flagged
empties for entity E are all urgent; 3 all keep attention. -/
theorem emptyRun_escalation_threshold_witness :
    (∀ a ∈ (emptyRun (.obj []) "Tue" [c7rec 1, c7rec 2, c7rec 3, c7rec 4]).2,
      entityStr a = "E" → getJ a "severity" = .s "urgent") ∧
    (∀ a ∈ (emptyRun (.obj []) "Tue" [c7rec 1, c7rec 2, c7rec 3]).2,
      entityStr a = "E" → getJ a "severity" = .s "attention") :=
  ⟨(emptyRun_escalation_threshold (.obj []) "Tue" [c7rec 1, c7rec 2, c7rec 3, c7rec 4]
      "E").1 rfl,
    (emptyRun_escalation_threshold (.obj []) "Tue" [c7rec 1, c7rec 2, c7rec 3]
      "E").2 rfl⟩

/-- CV with only the overall rows_stats {min:100, max:200, median:150}. -/
def c8cv : J := .obj [("volume_characteristics_section", .obj [
  ("presence", .obj [("overall_present", .b true)]),
  ("overall", .obj [("rows_stats", .obj [("min", .i 100), ("max", .i 200),
    ("median", .i 150)])])])]

def c8rec (n : Int) : Rec := [("filename", .s "f.csv"), ("rows", .i n)]

/-- C8 counterexample: with the overall band [0.9·100, 1.1·200] =
[90, 220], a record with rows = 90 sits on the inclusive boundary and
is NOT flagged — it passes to ok and the anomaly list is empty, while
the claim predicts a `volume_anomaly` flag for rows = 90. -/
theorem volumeRun_boundary_90_not_flagged :
    volumeRun c8cv "Tue" [c8rec 90] = ([c8rec 90], []) := rfl

/-- C8 (amended): with overall rows_stats {min:100, max:200, median:150}
the band is [90, 220] centered at 150; rows=90 (the boundary) is NOT
flagged, rows=89 is flagged, rows=150 is not flagged; and in general a
judged record (nonzero parseable rows with a resolved band) is flagged
exactly when its rows fall strictly outside [lo, hi]. -/
theorem volumeClassify_band_inclusion :
    volumeRun c8cv "Tue" [c8rec 89] =
      ([], [annotateVolume (c8rec 89) 89 "Tue" ⟨900, 10⟩ ⟨2200, 10⟩ ⟨150, 1⟩]) ∧
    volumeRun c8cv "Tue" [c8rec 90] = ([c8rec 90], []) ∧
    volumeRun c8cv "Tue" [c8rec 150] = ([c8rec 150], []) ∧
    ∀ cv fwd curMed ob pwp r n lo hi center,
      rowsNumOf r = some n → n ≠ 0 →
      bandChoiceFor cv fwd curMed ob pwp r = some (lo, hi, center) →
      volumeClassify cv fwd curMed ob pwp r =
        (if fracLt (Frac.ofInt n) lo || fracLt hi (Frac.ofInt n) then
          .inr (annotateVolume r n (weekdayForRecord r fwd) lo hi center)
        else .inl r) := by
  refine ⟨rfl, rfl, rfl, ?_⟩
  intro cv fwd curMed ob pwp r n lo hi center hrows hn hband
  unfold volumeClassify
  simp [hrows, hn, hband]

/-- Witness for the amended C8 at rows = 89 against the concrete band. -/
theorem volumeClassify_band_inclusion_witness :
    rowsNumOf (c8rec 89) = some 89 ∧
    bandChoiceFor c8cv "Tue" none (some (⟨900, 10⟩, ⟨2200, 10⟩, ⟨150, 1⟩)) false
      (c8rec 89) = some (⟨900, 10⟩, ⟨2200, 10⟩, ⟨150, 1⟩) ∧
    volumeClassify c8cv "Tue" none (some (⟨900, 10⟩, ⟨2200, 10⟩, ⟨150, 1⟩)) false
      (c8rec 89) =
      (if fracLt (Frac.ofInt 89) ⟨900, 10⟩ || fracLt ⟨2200, 10⟩ (Frac.ofInt 89) then
        .inr (annotateVolume (c8rec 89) 89 (weekdayForRecord (c8rec 89) "Tue")
          ⟨900, 10⟩ ⟨2200, 10⟩ ⟨150, 1⟩)
      else .inl (c8rec 89)) :=
  ⟨rfl, rfl, volumeClassify_band_inclusion.2.2.2 c8cv "Tue" none
    (some (⟨900, 10⟩, ⟨2200, 10⟩, ⟨150, 1⟩)) false (c8rec 89) 89 ⟨900, 10⟩
    ⟨2200, 10⟩ ⟨150, 1⟩ rfl (by decide) rfl⟩

/-- CV with Monday `expected_window_utc: "07:00:00-09:00:00 UTC"`. -/
def c9cv : J := .obj [("file_processing_pattern_section", .obj [
  ("upload_schedule_by_day", .arr [.obj [("day", .s "Mon"),
    ("expected_window_utc", .s "07:00:00-09:00:00 UTC")]])])]

/-- Monday 2024-01-01, uploaded 14:00 UTC, covered date = upload date. -/
def c9rec14 : Rec := [("filename", .s "f.csv"),
  ("uploaded_at", .s "2024-01-01T14:00:00+00:00"), ("covered_date", .s "2024-01-01")]

/-- Same record uploaded at 10:30 UTC. -/
def c9rec1030 : Rec := [("filename", .s "f.csv"),
  ("uploaded_at", .s "2024-01-01T10:30:00+00:00"), ("covered_date", .s "2024-01-01")]

/-- C9: with the Monday window "07:00:00-09:00:00 UTC", the lag-0
record uploaded Monday 14:00 UTC is flagged `upload_after_schedule`
with severity `attention` and the reason reporting a 5.0-hour delta
past the 09:00 cutoff; the same record uploaded at 10:30 UTC is not
flagged; and in general a record is flagged only when its upload
time-of-day exceeds the resolved cutoff by more than 240 minutes. -/
theorem scheduleRun_monday_window :
    scheduleRun c9cv "Mon" [c9rec14] = ([], [annotateSchedule c9rec14 840 540 "Mon"]) ∧
    getJ (annotateSchedule c9rec14 840 540 "Mon") "incident_reason" =
      .s "Uploaded 5.0h after expected cutoff (09:00 UTC) for Mon." ∧
    getJ (annotateSchedule c9rec14 840 540 "Mon") "incident_type" =
      .s "upload_after_schedule" ∧
    getJ (annotateSchedule c9rec14 840 540 "Mon") "severity" = .s "attention" ∧
    scheduleRun c9cv "Mon" [c9rec1030] = ([c9rec1030], []) ∧
    (∀ cv fwd r a, scheduleClassify cv fwd r = .inr a →
      ∃ um endm,
        minutesSinceMidnight (getJ r "uploaded_at") = some um ∧
        scheduleEndMinutesForWeekday cv
          (uploadWeekdayFromUploadedAt (getJ r "uploaded_at") fwd) = some endm ∧
        endm + 240 < um) := by
  refine ⟨rfl, rfl, rfl, rfl, rfl, ?_⟩
  intro cv fwd r a h
  unfold scheduleClassify at h
  dsimp only at h
  split at h
  · exact absurd h (by simp)
  · next um hm =>
    split at h
    · exact absurd h (by simp)
    · split at h
      · exact absurd h (by simp)
      · next endm hend =>
        split at h
        · next hguard =>
          refine ⟨um, endm, hm, hend, ?_⟩
          unfold lateThresholdMinutes at hguard
          omega
        · exact absurd h (by simp)

/-- Witness for C9's general conjunct at the 14:00 Monday record. -/
theorem scheduleRun_monday_window_witness :
    ∃ um endm,
      minutesSinceMidnight (getJ c9rec14 "uploaded_at") = some um ∧
      scheduleEndMinutesForWeekday c9cv
        (uploadWeekdayFromUploadedAt (getJ c9rec14 "uploaded_at") "Mon") = some endm ∧
      endm + 240 < um :=
  scheduleRun_monday_window.2.2.2.2.2 c9cv "Mon" c9rec14 _ rfl

theorem sweepLoop_mem_anoms (classify : Rec → Rec ⊕ Rec) (records : List Rec)
    (r a : Rec) (hmem : r ∈ records) (hc : classify r = .inr a) :
    a ∈ (sweepLoop classify records).2 := by
  induction records with
  | nil => cases hmem
  | cons x rest ih =>
    rcases List.mem_cons.mp hmem with hx | hx
    · subst hx
      simp [sweepLoop, hc]
    · cases hcx : classify x <;> simp [sweepLoop, hcx, ih hx]

/-- C10: a record with a parseable uploaded_at but unknown lag (missing
or unparseable covered_date) is never skipped by the backfill-lag
tolerance: it goes straight to the cutoff comparison and is flagged
`upload_after_schedule` exactly when its upload time-of-day exceeds the
resolved weekday cutoff by more than 240 minutes; a flagged record's
annotation lands in the run's anomaly list. -/
theorem scheduleClassify_unknown_lag (cv : J) (fwd : String) (r : Rec)
    (records : List Rec) (um endm : Int)
    (hm : minutesSinceMidnight (getJ r "uploaded_at") = some um)
    (hlag : daysLagUtc (getJ r "covered_date") (getJ r "uploaded_at") = none)
    (hend : scheduleEndMinutesForWeekday cv
      (uploadWeekdayFromUploadedAt (getJ r "uploaded_at") fwd) = some endm) :
    scheduleClassify cv fwd r =
      (if endm + 240 < um then
        .inr (annotateSchedule r um endm
          (uploadWeekdayFromUploadedAt (getJ r "uploaded_at") fwd))
      else .inl r) ∧
    (r ∈ records → endm + 240 < um →
      annotateSchedule r um endm
        (uploadWeekdayFromUploadedAt (getJ r "uploaded_at") fwd) ∈
        (scheduleRun cv fwd records).2) := by
  have h240 : lateThresholdMinutes = 240 := rfl
  have hcls : scheduleClassify cv fwd r =
      (if endm + 240 < um then
        .inr (annotateSchedule r um endm
          (uploadWeekdayFromUploadedAt (getJ r "uploaded_at") fwd))
      else .inl r) := by
    unfold scheduleClassify
    simp [hm, hlag, hend, h240]
  refine ⟨hcls, fun hmem hlate => ?_⟩
  refine sweepLoop_mem_anoms _ _ r _ hmem ?_
  rw [hcls, if_pos hlate]

/-- Parseable upload time, no covered_date at all. -/
def c10rec : Rec := [("filename", .s "f.csv"),
  ("uploaded_at", .s "2024-01-01T14:00:00+00:00")]

/-- Witness for C10 at a Monday 14:00 record with no covered_date. -/
theorem scheduleClassify_unknown_lag_witness :
    scheduleClassify c9cv "Mon" c10rec =
      (if (540 : Int) + 240 < 840 then
        .inr (annotateSchedule c10rec 840 540
          (uploadWeekdayFromUploadedAt (getJ c10rec "uploaded_at") "Mon"))
      else .inl c10rec) ∧
    (c10rec ∈ [c10rec] → (540 : Int) + 240 < 840 →
      annotateSchedule c10rec 840 540
        (uploadWeekdayFromUploadedAt (getJ c10rec "uploaded_at") "Mon") ∈
        (scheduleRun c9cv "Mon" [c10rec]).2) :=
  scheduleClassify_unknown_lag c9cv "Mon" c10rec [c10rec] 840 540 rfl rfl rfl

/-- Value of a well-formed fraction in ℚ (proof-side only). -/
def fracVal (q : Frac) : ℚ := (q.num : ℚ) / (q.den : ℚ)

theorem fracLt_iff (a b : Frac) (ha : 0 < a.den) (hb : 0 < b.den) :
    fracLt a b = true ↔ fracVal a < fracVal b := by
  have ha' : (0 : ℚ) < (a.den : ℚ) := by exact_mod_cast ha
  have hb' : (0 : ℚ) < (b.den : ℚ) := by exact_mod_cast hb
  rw [fracVal, fracVal, div_lt_div_iff ha' hb']
  simp only [fracLt, decide_eq_true_eq]
  exact ⟨fun h => by exact_mod_cast h, fun h => by exact_mod_cast h⟩

theorem fracEq_iff (a b : Frac) (ha : 0 < a.den) (hb : 0 < b.den) :
    fracEq a b = true ↔ fracVal a = fracVal b := by
  have ha' : ((a.den : ℚ)) ≠ 0 := by
    have : (0 : ℚ) < (a.den : ℚ) := by exact_mod_cast ha
    exact this.ne'
  have hb' : ((b.den : ℚ)) ≠ 0 := by
    have : (0 : ℚ) < (b.den : ℚ) := by exact_mod_cast hb
    exact this.ne'
  rw [fracVal, fracVal, div_eq_div_iff ha' hb']
  simp only [fracEq, decide_eq_true_eq]
  exact ⟨fun h => by exact_mod_cast h, fun h => by exact_mod_cast h⟩

/-- Lexicographic view of the keeper key in ℚ (proof-side only). -/
def keyLex (k : Int × Frac × Frac) : Int ×ₗ (ℚ ×ₗ ℚ) :=
  toLex (k.1, toLex (fracVal k.2.1, fracVal k.2.2))

/-- Well-formedness of a keeper key: positive denominators (every key
the code builds has them: `int()` results have denominator 1, parsed
floats have 10^k, `_ts` yields integers). -/
def keyWF (k : Int × Frac × Frac) : Prop := 0 < k.2.1.den ∧ 0 < k.2.2.den

theorem keyGt_iff_lt (a b : Int × Frac × Frac) (ha : keyWF a) (hb : keyWF b) :
    keyGt a b = true ↔ keyLex b < keyLex a := by
  obtain ⟨a1, a2, a3⟩ := a
  obtain ⟨b1, b2, b3⟩ := b
  obtain ⟨ha2, ha3⟩ := ha
  obtain ⟨hb2, hb3⟩ := hb
  rw [keyLex, keyLex, Prod.Lex.lt_iff]
  simp only [keyGt, Bool.or_eq_true, Bool.and_eq_true, decide_eq_true_eq,
    Prod.Lex.lt_iff, fracLt_iff _ _ hb2 ha2, fracLt_iff _ _ hb3 ha3,
    fracEq_iff _ _ ha2 hb2]
  constructor
  · rintro (h | ⟨h1, h2 | ⟨h2, h3⟩⟩)
    · exact Or.inl h
    · exact Or.inr ⟨h1.symm, Or.inl h2⟩
    · exact Or.inr ⟨h1.symm, Or.inr ⟨h2.symm, h3⟩⟩
  · rintro (h | ⟨h1, h2 | ⟨h2, h3⟩⟩)
    · exact Or.inl h
    · exact Or.inr ⟨h1.symm, Or.inl h2⟩
    · exact Or.inr ⟨h1.symm, Or.inr ⟨h2.symm, h3⟩⟩

theorem keyGt_irrefl (k : Int × Frac × Frac) : keyGt k k = false := by
  obtain ⟨k1, k2, k3⟩ := k
  simp [keyGt, fracLt, fracEq]

theorem keyGt_false_trans (a b c : Int × Frac × Frac)
    (ha : keyWF a) (hb : keyWF b) (hc : keyWF c)
    (h1 : keyGt a b = false) (h2 : keyGt b c = false) : keyGt a c = false := by
  by_contra h
  have h' : keyGt a c = true := by
    cases hac : keyGt a c with
    | true => rfl
    | false => exact absurd hac h
  rw [keyGt_iff_lt _ _ ha hc] at h'
  have h1' : ¬ keyLex b < keyLex a := by
    rw [← keyGt_iff_lt _ _ ha hb]; simp [h1]
  have h2' : ¬ keyLex c < keyLex b := by
    rw [← keyGt_iff_lt _ _ hb hc]; simp [h2]
  exact h1' (lt_of_le_of_lt (not_lt.mp h2') h')

theorem keyGt_true_not_lower (a b c : Int × Frac × Frac)
    (ha : keyWF a) (hb : keyWF b) (hc : keyWF c)
    (h1 : keyGt a b = true) (h2 : keyGt a c = false) : keyGt b c = false := by
  rw [keyGt_iff_lt _ _ ha hb] at h1
  cases hbc : keyGt b c with
  | false => rfl
  | true =>
    rw [keyGt_iff_lt _ _ hb hc] at hbc
    have hca : keyLex c < keyLex a := lt_trans hbc h1
    have hx : keyGt a c = true := (keyGt_iff_lt _ _ ha hc).mpr hca
    rw [h2] at hx
    exact absurd hx (by simp)

theorem bestPosAux_spec (items : List Rec) (ps : List Nat) :
    ∀ best bk res,
    keeperKey (items.getD best []) = .ok bk → keyWF bk →
    (∀ p ∈ ps, ∀ k, keeperKey (items.getD p []) = .ok k → keyWF k) →
    bestPosAux items best bk ps = .ok res →
    (res = best ∨ res ∈ ps) ∧
    ∃ rk, keeperKey (items.getD res []) = .ok rk ∧ keyWF rk ∧
      keyGt bk rk = false ∧
      ∀ p ∈ ps, ∀ k, keeperKey (items.getD p []) = .ok k → keyGt k rk = false := by
  induction ps with
  | nil =>
    intro best bk res hbk hwfb _ hrun
    cases hrun
    exact ⟨Or.inl rfl, bk, hbk, hwfb, keyGt_irrefl bk, by intro p hp; cases hp⟩
  | cons p ps ih =>
    intro best bk res hbk hwfb hwfs hrun
    rw [bestPosAux] at hrun
    cases hk : keeperKey (items.getD p []) with
    | error e => rw [hk] at hrun; exact absurd hrun (by simp)
    | ok kp =>
      rw [hk] at hrun
      dsimp only at hrun
      have hwfp := hwfs p (List.mem_cons_self p ps) kp hk
      by_cases hgt : keyGt kp bk = true
      · rw [if_pos hgt] at hrun
        obtain ⟨hres, rk, hrk, hwfr, hkprk, hrest⟩ :=
          ih p kp res hk hwfp (fun q hq => hwfs q (List.mem_cons_of_mem p hq)) hrun
        refine ⟨?_, rk, hrk, hwfr, ?_, ?_⟩
        · rcases hres with rfl | h
          · exact Or.inr (by simp)
          · exact Or.inr (by simp [h])
        · exact keyGt_true_not_lower kp bk rk hwfp hwfb hwfr hgt hkprk
        · intro q hq k hkq
          rcases List.mem_cons.mp hq with rfl | hq'
          · rw [hk] at hkq
            cases hkq
            exact hkprk
          · exact hrest q hq' k hkq
      · rw [if_neg hgt] at hrun
        have hgt' : keyGt kp bk = false := by
          cases h : keyGt kp bk
          · rfl
          · exact absurd h hgt
        obtain ⟨hres, rk, hrk, hwfr, hbkrk, hrest⟩ :=
          ih best bk res hbk hwfb (fun q hq => hwfs q (List.mem_cons_of_mem p hq)) hrun
        refine ⟨?_, rk, hrk, hwfr, hbkrk, ?_⟩
        · rcases hres with h | h
          · exact Or.inl h
          · exact Or.inr (by simp [h])
        · intro q hq k hkq
          rcases List.mem_cons.mp hq with rfl | hq'
          · rw [hk] at hkq
            cases hkq
            exact keyGt_false_trans kp bk rk hwfp hwfb hwfr hgt' hbkrk
          · exact hrest q hq' k hkq

theorem chooseKeeperPos_spec (items : List Rec) (kp : Nat)
    (hwf : ∀ p ∈ processedPos items, ∀ k,
      keeperKey (items.getD p []) = .ok k → keyWF k)
    (hrun : chooseKeeperPos items = .ok kp) :
    kp ∈ processedPos items ∧
    ∃ kk, keeperKey (items.getD kp []) = .ok kk ∧
      ∀ q ∈ processedPos items, ∀ kq, keeperKey (items.getD q []) = .ok kq →
        keyGt kq kk = false := by
  unfold chooseKeeperPos at hrun
  cases hpp : processedPos items with
  | nil => rw [hpp] at hrun; exact absurd hrun (by simp)
  | cons p ps =>
    rw [hpp] at hrun
    dsimp only at hrun
    cases hk : keeperKey (items.getD p []) with
    | error e => rw [hk] at hrun; exact absurd hrun (by simp)
    | ok k0 =>
      rw [hk] at hrun
      dsimp only at hrun
      have hwf0 := hwf p (by rw [hpp]; exact List.mem_cons_self p ps) k0 hk
      obtain ⟨hres, rk, hrk, hwfr, hk0rk, hrest⟩ :=
        bestPosAux_spec items ps p k0 kp hk hwf0
          (fun q hq => hwf q (by rw [hpp]; exact List.mem_cons_of_mem p hq)) hrun
      refine ⟨?_, rk, hrk, ?_⟩
      · rcases hres with rfl | h
        · simp
        · simp [h]
      · intro q hq kq hkq
        rcases List.mem_cons.mp hq with rfl | hq'
        · rw [hk] at hkq
          cases hkq
          exact hk0rk
        · exact hrest q hq' kq hkq

theorem length_range_filter_ne (n kp : Nat) (h : kp < n) :
    ((List.range n).filter (fun p => p != kp)).length = n - 1 := by
  have hnd : (List.range n).Nodup := List.nodup_range n
  rw [← hnd.erase_eq_filter kp]
  have hmem : kp ∈ List.range n := List.mem_range.mpr h
  have hlen := List.length_erase_add_one hmem
  rw [List.length_range] at hlen
  omega

theorem isPrefixOfChars_self_append (ps rest : List Char) :
    isPrefixOfChars ps (ps ++ rest) = true := by
  induction ps with
  | nil => rfl
  | cons p ps ih => simp [isPrefixOfChars, ih]

theorem isInfixOfChars_append_of_prefix (pat rest : List Char) (hne : pat ≠ []) :
    isInfixOfChars pat (pat ++ rest) = true := by
  cases pat with
  | nil => exact absurd rfl hne
  | cons p ps =>
    rw [List.cons_append, isInfixOfChars]
    simp [isPrefixOfChars, isPrefixOfChars_self_append]

theorem multiProcReason_contains (keeper : Rec) :
    strContains (multiProcReason keeper) "multi_processed" = true := by
  have key : ∀ s2 : String, ("multi_processed (keeper=" ++ s2 ++ ")").data =
      "multi_processed".data ++ (" (keeper=".data ++ s2.data ++ ")".data) := by
    intro s2
    rw [String.data_append, String.data_append, show "multi_processed (keeper=".data =
      "multi_processed".data ++ " (keeper=".data from rfl]
    simp
  unfold strContains multiProcReason
  simp only [String.toList]
  rw [key]
  exact isInfixOfChars_append_of_prefix _ _ (by decide)

/-- C2: for a duplicate group with more than one processed member
(keys well-formed, as every value the code builds is), the group
handler puts exactly the chosen keeper in `final`; the keeper is a
processed member that no processed member's
(rows, file_size, uploaded_at-timestamp) key strictly beats under
Python's lexicographic tuple order — rows decide first, so with
processed rows 10 and 20 the rows-20 record wins regardless of list
order — and every other member lands in `removed` with a reason
containing "multi_processed"; nothing is harmless. -/
theorem processGroup_multi_processed (items : List Rec) (fa ra ha : List Rec)
    (hmulti : 1 < (processedPos items).length)
    (hwf : ∀ p ∈ processedPos items, ∀ k,
      keeperKey (items.getD p []) = .ok k → keyWF k)
    (hrun : processGroup items = .ok (fa, ra, ha)) :
    ∃ kp kk, kp ∈ processedPos items ∧
      keeperKey (items.getD kp []) = .ok kk ∧
      fa = [items.getD kp []] ∧
      (∀ q ∈ processedPos items, ∀ kq,
        keeperKey (items.getD q []) = .ok kq → keyGt kq kk = false) ∧
      ra = (nonKeeperMembers items kp).map
        (fun it => dictSet it "dedupe_reason"
          (.s (multiProcReason (items.getD kp [])))) ∧
      ra.length = items.length - 1 ∧
      (∀ x ∈ ra,
        strContains (pyStrJ (getJ x "dedupe_reason")) "multi_processed" = true) ∧
      ha = [] := by
  unfold processGroup at hrun
  have h0 : ¬ ((processedPos items).length = 0) := by omega
  rw [if_neg h0, if_pos hmulti] at hrun
  cases hck : chooseKeeperPos items with
  | error e => rw [hck] at hrun; exact absurd hrun (by simp)
  | ok kp =>
    rw [hck] at hrun
    dsimp only at hrun
    obtain ⟨hkpmem, kk, hkk, hmax⟩ := chooseKeeperPos_spec items kp hwf hck
    have hkplt : kp < items.length := by
      have hm := hkpmem
      unfold processedPos at hm
      exact List.mem_range.mp (List.mem_filter.mp hm).1
    injection hrun with h1
    simp only [Prod.mk.injEq] at h1
    obtain ⟨hfa, hra, hha⟩ := h1
    refine ⟨kp, kk, hkpmem, hkk, hfa.symm, hmax, hra.symm, ?_, ?_, hha.symm⟩
    · rw [← hra]
      simp [nonKeeperMembers, length_range_filter_ne items.length kp hkplt]
    · intro x hx
      rw [← hra] at hx
      obtain ⟨it, _, hxe⟩ := List.mem_map.mp hx
      rw [← hxe, getJ_dictSet_self]
      simpa [pyStrJ] using multiProcReason_contains (items.getD kp [])

def c2recA : Rec := [("filename", .s "a.csv"), ("status", .s "processed"), ("rows", .i 10)]

def c2recB : Rec := [("filename", .s "a.csv"), ("status", .s "processed"), ("rows", .i 20)]

/-- Witness for C2: a two-member processed group with rows 10 and 20 —
in both input orders the keeper placed in `final` is the rows-20
record, and the theorem's keeper characterization holds at this
group. -/
theorem processGroup_multi_processed_witness :
    (processGroup [c2recA, c2recB]).map (fun t => t.1) = .ok [c2recB] ∧
    (processGroup [c2recB, c2recA]).map (fun t => t.1) = .ok [c2recB] ∧
    ∃ kp kk, kp ∈ processedPos [c2recA, c2recB] ∧
      keeperKey ([c2recA, c2recB].getD kp []) = .ok kk ∧
      [c2recB] = [[c2recA, c2recB].getD kp []] ∧
      (∀ q ∈ processedPos [c2recA, c2recB], ∀ kq,
        keeperKey ([c2recA, c2recB].getD q []) = .ok kq → keyGt kq kk = false) ∧
      [dictSet c2recA "dedupe_reason" (.s "multi_processed (keeper=a.csv)")] =
        (nonKeeperMembers [c2recA, c2recB] kp).map
          (fun it => dictSet it "dedupe_reason"
            (.s (multiProcReason ([c2recA, c2recB].getD kp [])))) ∧
      [dictSet c2recA "dedupe_reason"
        (.s "multi_processed (keeper=a.csv)")].length =
          [c2recA, c2recB].length - 1 ∧
      (∀ x ∈ [dictSet c2recA "dedupe_reason" (.s "multi_processed (keeper=a.csv)")],
        strContains (pyStrJ (getJ x "dedupe_reason")) "multi_processed" = true) ∧
      ([] : List Rec) = [] := by
  refine ⟨rfl, rfl, ?_⟩
  refine processGroup_multi_processed [c2recA, c2recB] [c2recB]
    [dictSet c2recA "dedupe_reason" (.s "multi_processed (keeper=a.csv)")] []
    (by decide) ?_ rfl
  intro p hp k hk
  have hp' : p ∈ [0, 1] := hp
  simp only [List.mem_cons, List.mem_singleton] at hp'
  rcases hp' with rfl | hp''
  · have hk' : (Except.ok ((10 : Int), (⟨0, 1⟩ : Frac), (⟨0, 1⟩ : Frac)) :
        Except PyErr (Int × Frac × Frac)) = .ok k := hk
    cases hk'
    constructor <;> decide
  · rcases hp'' with rfl | hp3
    · have hk' : (Except.ok ((20 : Int), (⟨0, 1⟩ : Frac), (⟨0, 1⟩ : Frac)) :
          Except PyErr (Int × Frac × Frac)) = .ok k := hk
      cases hk'
      constructor <;> decide
    · cases hp3

open scoped List

theorem bucketsInsert_join_perm (bs : List (J × List Nat)) (k : J) (i : Nat) :
    ((bucketsInsert bs k i).map Prod.snd).flatten ~ i :: (bs.map Prod.snd).flatten := by
  induction bs with
  | nil => simp [bucketsInsert]
  | cons b rest ih =>
    obtain ⟨kb, lb⟩ := b
    by_cases h : pyEqJ kb k
    · simp only [bucketsInsert, h, if_pos, List.map_cons, List.flatten]
      have : (lb ++ [i]) ++ (rest.map Prod.snd).flatten =
          lb ++ i :: (rest.map Prod.snd).flatten := by simp
      rw [this]
      exact List.perm_middle
    · simp only [bucketsInsert, h, if_neg, Bool.false_eq_true, not_false_iff,
        List.map_cons, List.flatten]
      calc lb ++ ((bucketsInsert rest k i).map Prod.snd).flatten
          ~ lb ++ (i :: (rest.map Prod.snd).flatten) := ih.append_left lb
        _ ~ i :: (lb ++ (rest.map Prod.snd).flatten) := List.perm_middle

/-- The indices `_group_by` files under some key, in order. -/
def selIdxs (key : Rec → Option J) : Nat → List Rec → List Nat
  | _, [] => []
  | n, r :: rs =>
    match key r with
    | none => selIdxs key (n + 1) rs
    | some _ => n :: selIdxs key (n + 1) rs

theorem groupIdxFrom_join_perm (key : Rec → Option J) (rs : List Rec) :
    ∀ n bs, ((groupIdxFrom key n rs bs).map Prod.snd).flatten ~
      (bs.map Prod.snd).flatten ++ selIdxs key n rs := by
  induction rs with
  | nil => intro n bs; simp [groupIdxFrom, selIdxs]
  | cons r rs ih =>
    intro n bs
    cases hk : key r with
    | none => simpa [groupIdxFrom, selIdxs, hk] using ih (n + 1) bs
    | some k =>
      simp only [groupIdxFrom, selIdxs, hk]
      calc ((groupIdxFrom key (n + 1) rs (bucketsInsert bs k n)).map Prod.snd).flatten
          ~ ((bucketsInsert bs k n).map Prod.snd).flatten ++ selIdxs key (n + 1) rs :=
            ih (n + 1) (bucketsInsert bs k n)
        _ ~ (n :: (bs.map Prod.snd).flatten) ++ selIdxs key (n + 1) rs :=
            (bucketsInsert_join_perm bs k n).append_right _
        _ ~ (bs.map Prod.snd).flatten ++ (n :: selIdxs key (n + 1) rs) := by
            rw [List.cons_append]
            exact List.perm_middle.symm

theorem selIdxs_sublist (key : Rec → Option J) (rs : List Rec) :
    ∀ n, selIdxs key n rs <+ List.range' n rs.length := by
  induction rs with
  | nil => intro n; simp [selIdxs]
  | cons r rs ih =>
    intro n
    have hr : List.range' n (r :: rs).length = n :: List.range' (n + 1) rs.length := rfl
    rw [hr]
    cases hk : key r with
    | none =>
      simp only [selIdxs, hk]
      exact (ih (n + 1)).cons n
    | some k =>
      simp only [selIdxs, hk]
      exact (ih (n + 1)).cons₂ n

theorem sublist_join_of_sublist {α : Type} {l₁ l₂ : List (List α)} (h : l₁ <+ l₂) :
    l₁.flatten <+ l₂.flatten := by
  induction h with
  | slnil => exact List.Sublist.refl _
  | cons x _ ih => exact ih.trans (List.sublist_append_right x _)
  | cons₂ x _ ih => exact ih.append_left x

theorem groups_join_sublist (bs : List (J × List Nat)) (pred : J × List Nat → Bool) :
    (((bs.filter pred).map Prod.snd).flatten) <+ ((bs.map Prod.snd).flatten) :=
  sublist_join_of_sublist ((bs.filter_sublist).map Prod.snd)

theorem perm_filter_mem_of_nodup (l sub : List Nat) (hl : l.Nodup) (hsub : sub.Nodup)
    (hss : ∀ x ∈ sub, x ∈ l) :
    l.filter (fun i => sub.contains i) ~ sub := by
  refine List.perm_of_nodup_nodup_toFinset_eq (hl.filter _) hsub ?_
  ext x
  simp only [List.mem_toFinset, List.mem_filter]
  constructor
  · rintro ⟨_, hc⟩
    simpa using hc
  · intro hx
    exact ⟨hss x hx, by simpa using hx⟩

theorem groupIdxBy_flatten_perm (key : Rec → Option J) (rs : List Rec) :
    ((groupIdxBy key rs).map Prod.snd).flatten ~ selIdxs key 0 rs := by
  simpa [groupIdxBy] using groupIdxFrom_join_perm key rs 0 []

theorem selIdxs_sublist_range (key : Rec → Option J) (rs : List Rec) :
    selIdxs key 0 rs <+ List.range rs.length := by
  rw [List.range_eq_range']
  exact selIdxs_sublist key rs 0

/-- The flattened member lists of any subfamily of `_group_by`'s buckets
are duplicate-free indices into the grouped list. -/
theorem grouped_flatten_facts (key : Rec → Option J) (rs : List Rec)
    (pred : J × List Nat → Bool) :
    ((((groupIdxBy key rs).filter pred).map Prod.snd).flatten).Nodup ∧
      ∀ x ∈ (((groupIdxBy key rs).filter pred).map Prod.snd).flatten,
        x < rs.length := by
  have hsel : (selIdxs key 0 rs).Nodup :=
    (selIdxs_sublist_range key rs).nodup (List.nodup_range _)
  have hall : ((groupIdxBy key rs).map Prod.snd).flatten.Nodup :=
    ((groupIdxBy_flatten_perm key rs).nodup_iff).mpr hsel
  have hsub := groups_join_sublist (groupIdxBy key rs) pred
  refine ⟨hsub.nodup hall, ?_⟩
  intro x hx
  have hx2 : x ∈ ((groupIdxBy key rs).map Prod.snd).flatten := hsub.subset hx
  have hx3 : x ∈ selIdxs key 0 rs := (groupIdxBy_flatten_perm key rs).mem_iff.mp hx2
  have hx4 : x ∈ List.range rs.length := (selIdxs_sublist_range key rs).subset hx3
  exact List.mem_range.mp hx4

theorem dedupGroups1_flatten_facts (records : List Rec) :
    (dedupGroups1 records).flatten.Nodup ∧
      ∀ x ∈ (dedupGroups1 records).flatten, x < records.length := by
  have h := grouped_flatten_facts filenameKey records
      (fun bkt => decide (1 < bkt.2.length))
  have he : (dedupGroups1 records).flatten =
      ((((groupIdxBy filenameKey records).filter
        (fun bkt => decide (1 < bkt.2.length))).map Prod.snd).flatten) := rfl
  rw [he]
  exact h

theorem dedupRemaining_nodup (records : List Rec) :
    (dedupRemaining records).Nodup :=
  (List.nodup_range _).filter _

theorem dedupRemaining_facts (records : List Rec) :
    ∀ x ∈ dedupRemaining records,
      x < records.length ∧ x ∉ (dedupGroups1 records).flatten := by
  intro x hx
  rw [dedupRemaining, List.mem_filter] at hx
  obtain ⟨h1, h2⟩ := hx
  refine ⟨List.mem_range.mp h1, ?_⟩
  simpa using h2

theorem dedupGroups2loc_flatten_facts (records : List Rec) :
    (dedupGroups2loc records).flatten.Nodup ∧
      ∀ x ∈ (dedupGroups2loc records).flatten,
        x < (dedupRemaining records).length := by
  have h := grouped_flatten_facts ckKey (dedupSub records)
      (fun bkt => decide (1 < bkt.2.length))
  have he : (dedupGroups2loc records).flatten =
      ((((groupIdxBy ckKey (dedupSub records)).filter
        (fun bkt => decide (1 < bkt.2.length))).map Prod.snd).flatten) := rfl
  have hlen : (dedupSub records).length = (dedupRemaining records).length :=
    List.length_map _ _
  rw [he, ← hlen]
  exact h

theorem dedupGroups2_flatten_eq (records : List Rec) :
    (dedupGroups2 records).flatten =
      (dedupGroups2loc records).flatten.map
        (fun jdx => (dedupRemaining records).getD jdx 0) := by
  rw [dedupGroups2, List.map_flatten]

theorem dedupGroups2_flatten_facts (records : List Rec) :
    (dedupGroups2 records).flatten.Nodup ∧
      ∀ x ∈ (dedupGroups2 records).flatten, x ∈ dedupRemaining records := by
  obtain ⟨hnd, hlt⟩ := dedupGroups2loc_flatten_facts records
  rw [dedupGroups2_flatten_eq]
  constructor
  · refine hnd.map_on ?_
    intro j hj j' hj' heq
    have hjl := hlt j hj
    have hjl' := hlt j' hj'
    rw [List.getD_eq_getElem _ _ hjl, List.getD_eq_getElem _ _ hjl'] at heq
    exact (List.Nodup.getElem_inj_iff (dedupRemaining_nodup records)).mp heq
  · intro x hx
    rw [List.mem_map] at hx
    obtain ⟨j, hj, rfl⟩ := hx
    have hjl := hlt j hj
    rw [List.getD_eq_getElem _ _ hjl]
    exact List.getElem_mem _

/-- The duplicate-group member indices together with the never-grouped
indices are a permutation of all record indices: every record index lands
in exactly one group or in the non-duplicate pass-through. -/
theorem dedupGroups_partition (records : List Rec) :
    ((dedupGroups records).1.flatten ++ (dedupGroups records).2) ~
      List.range records.length := by
  obtain ⟨h1nd, h1lt⟩ := dedupGroups1_flatten_facts records
  obtain ⟨h2nd, h2mem⟩ := dedupGroups2_flatten_facts records
  have hdisj : (dedupGroups1 records).flatten.Disjoint
      (dedupGroups2 records).flatten := by
    intro a ha1 ha2
    exact (dedupRemaining_facts records a (h2mem a ha2)).2 ha1
  have hnd : ((dedupGroups1 records).flatten ++
      (dedupGroups2 records).flatten).Nodup :=
    h1nd.append h2nd hdisj
  have hss : ∀ x ∈ (dedupGroups1 records).flatten ++
      (dedupGroups2 records).flatten, x ∈ List.range records.length := by
    intro x hx
    rw [List.mem_append] at hx
    rw [List.mem_range]
    rcases hx with hx | hx
    · exact h1lt x hx
    · exact (dedupRemaining_facts records x (h2mem x hx)).1
  have key := perm_filter_mem_of_nodup (List.range records.length)
      ((dedupGroups1 records).flatten ++ (dedupGroups2 records).flatten)
      (List.nodup_range _) hnd hss
  have hS : (dedupGroups records).1.flatten =
      (dedupGroups1 records).flatten ++ (dedupGroups2 records).flatten := by
    rw [dedupGroups, List.flatten_append]
  have hN : (dedupGroups records).2 = (List.range records.length).filter
      (fun i => !((dedupGroups1 records).flatten ++
        (dedupGroups2 records).flatten).contains i) := rfl
  rw [hS, hN]
  calc (dedupGroups1 records).flatten ++ (dedupGroups2 records).flatten ++
        (List.range records.length).filter
          (fun i => !((dedupGroups1 records).flatten ++
            (dedupGroups2 records).flatten).contains i)
      ~ (List.range records.length).filter
          (fun i => ((dedupGroups1 records).flatten ++
            (dedupGroups2 records).flatten).contains i) ++
        (List.range records.length).filter
          (fun i => !((dedupGroups1 records).flatten ++
            (dedupGroups2 records).flatten).contains i) :=
        key.symm.append_right _
    _ ~ List.range records.length := List.filter_append_perm _ _

/-- One duplicate group adds one record to `final` exactly when it has at
least one processed member (its keeper), and none otherwise. -/
theorem processGroup_final_length (items fa ra ha : List Rec)
    (h : processGroup items = .ok (fa, ra, ha)) :
    fa.length = if (processedPos items).isEmpty then 0 else 1 := by
  rw [processGroup] at h
  dsimp only at h
  by_cases h0 : (processedPos items).length = 0
  · rw [if_pos h0] at h
    injection h with h
    injection h with h1 h2
    rw [← h1, List.isEmpty_iff_length_eq_zero.mpr h0]
    rfl
  · rw [if_neg h0] at h
    have hne : (processedPos items).isEmpty = false := by
      rcases hl : processedPos items with _ | ⟨p, ps⟩
      · exact absurd (by rw [hl]; rfl) h0
      · rfl
    rw [hne]
    by_cases h1 : 1 < (processedPos items).length
    · rw [if_pos h1] at h
      cases hk : chooseKeeperPos items with
      | error e => rw [hk] at h; exact absurd h (by simp)
      | ok kp =>
        rw [hk] at h
        injection h with h
        injection h with hf h2
        rw [← hf]
        rfl
    · rw [if_neg h1] at h
      injection h with h
      injection h with hf h2
      rw [← hf]
      rfl

/-- Over the group loop, `final` collects exactly one keeper per group
with at least one processed member. -/
theorem runGroups_final_length (records : List Rec) :
    ∀ gs fg rg hg, runGroups records gs = .ok (fg, rg, hg) →
      fg.length = gs.countP
        (fun g => !(processedPos (g.map (fun i => records.getD i []))).isEmpty) := by
  intro gs
  induction gs with
  | nil =>
    intro fg rg hg h
    rw [runGroups] at h
    injection h with h
    injection h with h1 h2
    rw [← h1]
    rfl
  | cons g gs ih =>
    intro fg rg hg h
    rw [runGroups] at h
    cases hp : processGroup (g.map (fun i => records.getD i [])) with
    | error e => rw [hp] at h; exact absurd h (by simp)
    | ok t =>
      obtain ⟨fa, ra, ha⟩ := t
      rw [hp] at h
      cases hr : runGroups records gs with
      | error e => rw [hr] at h; exact absurd h (by simp)
      | ok t2 =>
        obtain ⟨fs, rs, hs⟩ := t2
        rw [hr] at h
        injection h with h
        injection h with h1 h2
        have hfa := processGroup_final_length _ _ _ _ hp
        have hih := ih fs rs hs hr
        rw [← h1, List.length_append, hfa, hih, List.countP_cons]
        by_cases he :
            (processedPos (g.map (fun i => records.getD i []))).isEmpty
        · rw [if_pos he, he]
          simp
        · have he' :
              (processedPos (g.map (fun i => records.getD i []))).isEmpty
                = false := by
            rcases hq :
                (processedPos (g.map (fun i => records.getD i []))).isEmpty
            · rfl
            · exact absurd hq he
          rw [if_neg he, he']
          simp [Nat.add_comm]

def c3recA : Rec := [("filename", .s "a.csv"), ("status", .s "processed"), ("rows", .i 10)]

def c3recB : Rec := [("filename", .s "a.csv"), ("status", .s "processed"), ("rows", .i 20)]

def c3recC : Rec := [("filename", .s "c.csv"), ("status", .s "processed"), ("rows", .i 5)]

def c3recs : List Rec := [c3recA, c3recB, c3recC]

def c3res : DedupOut :=
  ⟨[c3recC, c3recB],
   [dictSet c3recA "dedupe_reason" (.s "multi_processed (keeper=a.csv)")], []⟩

/-- C3: for every record list on which the resolver succeeds, `final`
has exactly (number of never-grouped records) + (number of duplicate
groups with at least one processed member) entries; every record index
lands in exactly one duplicate group or in the never-grouped set (their
concatenation is a permutation of all record indices, so each index is
consumed by exactly one of the four outcomes: non-dup pass-through, or
the zero-, one- or multi-processed case of its group); and the never-grouped
records pass through in order as the leading prefix of `final`. -/
theorem dedupRun_partition_counts (records : List Rec) (res : DedupOut)
    (h : dedupRun records = .ok res) :
    res.final.length = (dedupGroups records).2.length +
        (dedupGroups records).1.countP
          (fun g => !(processedPos (g.map (fun i => records.getD i []))).isEmpty) ∧
      ((dedupGroups records).1.flatten ++ (dedupGroups records).2) ~
        List.range records.length ∧
      res.final.take (dedupGroups records).2.length =
        (dedupGroups records).2.map (fun i => records.getD i []) := by
  rw [dedupRun] at h
  cases hr : runGroups records (dedupGroups records).1 with
  | error e => rw [hr] at h; exact absurd h (by simp)
  | ok t =>
    obtain ⟨fg, rg, hg⟩ := t
    rw [hr] at h
    injection h with h
    refine ⟨?_, dedupGroups_partition records, ?_⟩
    · rw [← h]
      dsimp only
      rw [List.length_append, List.length_map,
        runGroups_final_length records _ fg rg hg hr]
    · rw [← h]
      dsimp only
      exact List.take_left' (List.length_map _ _)

theorem dedupRun_partition_counts_witness :
    dedupRun c3recs = .ok c3res ∧
      (c3res.final.length = (dedupGroups c3recs).2.length +
          (dedupGroups c3recs).1.countP
            (fun g => !(processedPos (g.map (fun i => c3recs.getD i []))).isEmpty) ∧
        ((dedupGroups c3recs).1.flatten ++ (dedupGroups c3recs).2) ~
          List.range c3recs.length ∧
        c3res.final.take (dedupGroups c3recs).2.length =
          (dedupGroups c3recs).2.map (fun i => c3recs.getD i [])) :=
  ⟨rfl, dedupRun_partition_counts c3recs c3res rfl⟩

theorem key4_dictSet (r : Rec) (k : String) (v : J)
    (h1 : k ≠ "filename") (h2 : k ≠ "cleaned_filename")
    (h3 : k ≠ "batch") (h4 : k ≠ "uploaded_at") :
    key4 (dictSet r k v) = key4 r := by
  rw [key4, key4,
    getJ_dictSet_ne _ _ _ _ (fun hh => h1 hh.symm),
    getJ_dictSet_ne _ _ _ _ (fun hh => h2 hh.symm),
    getJ_dictSet_ne _ _ _ _ (fun hh => h3 hh.symm),
    getJ_dictSet_ne _ _ _ _ (fun hh => h4 hh.symm)]

theorem key4_annotateRemoved (r : Rec) : key4 (annotateRemoved r) = key4 r := by
  rw [annotateRemoved]
  rw [key4_dictSet _ _ _ (by decide) (by decide) (by decide) (by decide),
    key4_dictSet _ _ _ (by decide) (by decide) (by decide) (by decide),
    key4_dictSet _ _ _ (by decide) (by decide) (by decide) (by decide)]

theorem key4_annotateStatus (r : Rec) : key4 (annotateStatus r) = key4 r := by
  rw [annotateStatus]
  rw [key4_dictSet _ _ _ (by decide) (by decide) (by decide) (by decide),
    key4_dictSet _ _ _ (by decide) (by decide) (by decide) (by decide),
    key4_dictSet _ _ _ (by decide) (by decide) (by decide) (by decide)]

theorem key4_annotateFlagged (r : Rec) : key4 (annotateFlagged r) = key4 r := by
  rw [annotateFlagged]
  rw [key4_dictSet _ _ _ (by decide) (by decide) (by decide) (by decide),
    key4_dictSet _ _ _ (by decide) (by decide) (by decide) (by decide),
    key4_dictSet _ _ _ (by decide) (by decide) (by decide) (by decide)]

theorem key4_dictSet_reason (r : Rec) (v : J) :
    key4 (dictSet r "dedupe_reason" v) = key4 r :=
  key4_dictSet r _ v (by decide) (by decide) (by decide) (by decide)

theorem map_getD_range {α : Type} (l : List α) (d : α) :
    (List.range l.length).map (fun p => l.getD p d) = l := by
  induction l with
  | nil => rfl
  | cons a rest ih =>
    rw [List.length_cons, List.range_succ_eq_map, List.map_cons, List.map_map]
    have h1 : ((fun p => (a :: rest).getD p d) ∘ Nat.succ)
        = (fun p => rest.getD p d) := by
      funext p
      simp [List.getD_cons_succ]
    rw [h1, ih]
    rfl

theorem getD_map_lt {α β : Type} (l : List α) (f : α → β) (p : Nat)
    (d : β) (d' : α) (h : p < l.length) :
    (l.map f).getD p d = f (l.getD p d') := by
  have h2 : p < (l.map f).length := by rwa [List.length_map]
  rw [List.getD_eq_getElem _ _ h2, List.getD_eq_getElem _ _ h, List.getElem_map]

/-- Each duplicate group's contribution to `removed` is the group's
member records at a subfamily of its member indices (all members for a
zero-processed group, everyone but the keeper for a multi-processed one,
nobody otherwise), with only `dedupe_reason` added. -/
theorem processGroup_removed (records : List Rec) (g : List Nat)
    (fa ra ha : List Rec)
    (h : processGroup (g.map (fun i => records.getD i [])) = .ok (fa, ra, ha)) :
    ∃ idxs : List Nat, idxs <+ g ∧
      ra.map key4 = idxs.map (fun i => key4 (records.getD i [])) := by
  rw [processGroup] at h
  dsimp only at h
  by_cases h0 :
      (processedPos (g.map (fun i => records.getD i []))).length = 0
  · rw [if_pos h0] at h
    injection h with h
    injection h with h1 h2
    injection h2 with h2 h3
    refine ⟨g, List.Sublist.refl g, ?_⟩
    rw [← h2, List.map_map, List.map_map]
    refine List.map_congr_left ?_
    intro i hi
    exact key4_dictSet_reason _ _
  · rw [if_neg h0] at h
    by_cases h1 :
        1 < (processedPos (g.map (fun i => records.getD i []))).length
    · rw [if_pos h1] at h
      cases hk : chooseKeeperPos (g.map (fun i => records.getD i [])) with
      | error e => rw [hk] at h; exact absurd h (by simp)
      | ok kp =>
        rw [hk] at h
        injection h with h
        injection h with hfa h2
        injection h2 with hra h3
        refine ⟨((List.range g.length).filter (fun p => p != kp)).map
          (fun p => g.getD p 0), ?_, ?_⟩
        · have hs : ((List.range g.length).filter (fun p => p != kp)) <+
              List.range g.length := List.filter_sublist _
          have hs2 := hs.map (fun p => g.getD p 0)
          rwa [map_getD_range g 0] at hs2
        · rw [← hra, nonKeeperMembers, List.length_map, List.map_map,
            List.map_map, List.map_map]
          refine List.map_congr_left ?_
          intro p hp
          have hplt : p < g.length := List.mem_range.mp (List.mem_of_mem_filter hp)
          show key4 (dictSet ((g.map (fun i => records.getD i [])).getD p [])
              "dedupe_reason" _) = key4 (records.getD (g.getD p 0) [])
          rw [key4_dictSet_reason,
            getD_map_lt g (fun i => records.getD i []) p [] 0 hplt]
    · rw [if_neg h1] at h
      injection h with h
      injection h with hfa h2
      injection h2 with hra h3
      exact ⟨[], List.nil_sublist g, by rw [← hra]; rfl⟩

/-- Over the whole group loop, `removed` is drawn (in order, with
`dedupe_reason` added) from a subfamily of the groups' member indices. -/
theorem runGroups_removed (records : List Rec) :
    ∀ gs fg rg hgs, runGroups records gs = .ok (fg, rg, hgs) →
      ∃ idxs : List Nat, idxs <+ gs.flatten ∧
        rg.map key4 = idxs.map (fun i => key4 (records.getD i [])) := by
  intro gs
  induction gs with
  | nil =>
    intro fg rg hgs h
    rw [runGroups] at h
    injection h with h
    injection h with h1 h2
    injection h2 with h2 h3
    exact ⟨[], List.nil_sublist _, by rw [← h2]; rfl⟩
  | cons g gs ih =>
    intro fg rg hgs h
    rw [runGroups] at h
    cases hp : processGroup (g.map (fun i => records.getD i [])) with
    | error e => rw [hp] at h; exact absurd h (by simp)
    | ok t =>
      obtain ⟨fa, ra, ha⟩ := t
      rw [hp] at h
      cases hr : runGroups records gs with
      | error e => rw [hr] at h; exact absurd h (by simp)
      | ok t2 =>
        obtain ⟨fs, rs, hs⟩ := t2
        rw [hr] at h
        injection h with h
        injection h with h1 h2
        injection h2 with h2 h3
        obtain ⟨i1, hi1s, hi1k⟩ := processGroup_removed records g fa ra ha hp
        obtain ⟨i2, hi2s, hi2k⟩ := ih fs rs hs hr
        refine ⟨i1 ++ i2, ?_, ?_⟩
        · rw [List.flatten_cons]
          exact hi1s.append hi2s
        · rw [← h2, List.map_append, List.map_append, hi1k, hi2k]

theorem dedupGroupsFlat_facts (records : List Rec) :
    ((dedupGroups records).1.flatten).Nodup ∧
      ∀ x ∈ (dedupGroups records).1.flatten, x < records.length := by
  obtain ⟨h1nd, h1lt⟩ := dedupGroups1_flatten_facts records
  obtain ⟨h2nd, h2mem⟩ := dedupGroups2_flatten_facts records
  have hS : (dedupGroups records).1.flatten =
      (dedupGroups1 records).flatten ++ (dedupGroups2 records).flatten := by
    rw [dedupGroups, List.flatten_append]
  rw [hS]
  constructor
  · refine h1nd.append h2nd ?_
    intro a ha1 ha2
    exact (dedupRemaining_facts records a (h2mem a ha2)).2 ha1
  · intro x hx
    rw [List.mem_append] at hx
    rcases hx with hx | hx
    · exact h1lt x hx
    · exact (dedupRemaining_facts records x (h2mem x hx)).1

/-- The classifier sweep's two output lists carry, together, exactly the
4-tuples of the originals whose 4-tuple matches no removed key. -/
theorem classifySweep_keys_perm (ks : List (List J)) (rs : List Rec) :
    (((classifySweep ks rs).1 ++ (classifySweep ks rs).2).map key4) ~
      ((rs.filter (fun r => !ks.any (fun k => pyEqL (key4 r) k))).map key4) := by
  induction rs with
  | nil => exact List.Perm.refl _
  | cons r rest ih =>
    rw [classifySweep]
    by_cases hskip : ks.any (fun k => pyEqL (key4 r) k)
    · rw [if_pos hskip, List.filter_cons_of_neg (by rw [hskip]; simp)]
      exact ih
    · have hskip' : ks.any (fun k => pyEqL (key4 r) k) = false := by
        rcases hq : ks.any (fun k => pyEqL (key4 r) k)
        · rfl
        · exact absurd hq hskip
      rw [if_neg hskip, List.filter_cons_of_pos (by rw [hskip']; rfl)]
      by_cases hst : !decide (statusText r = "processed")
      · rw [if_pos hst, List.map_cons]
        have : ((annotateStatus r :: (classifySweep ks rest).1) ++
            (classifySweep ks rest).2).map key4 =
            key4 (annotateStatus r) ::
              (((classifySweep ks rest).1 ++ (classifySweep ks rest).2).map key4) := by
          rw [List.cons_append, List.map_cons]
        rw [this, key4_annotateStatus]
        exact ih.cons _
      · rw [if_neg hst]
        by_cases hfl : truthy (getJ r "is_duplicated")
        · rw [if_pos hfl, List.map_cons]
          have : ((annotateFlagged r :: (classifySweep ks rest).1) ++
              (classifySweep ks rest).2).map key4 =
              key4 (annotateFlagged r) ::
                (((classifySweep ks rest).1 ++ (classifySweep ks rest).2).map key4) := by
            rw [List.cons_append, List.map_cons]
          rw [this, key4_annotateFlagged]
          exact ih.cons _
        · rw [if_neg hfl, List.map_cons]
          have hmid : (((classifySweep ks rest).1 ++
              (r :: (classifySweep ks rest).2)).map key4) ~
              (key4 r ::
                (((classifySweep ks rest).1 ++ (classifySweep ks rest).2).map key4)) := by
            rw [List.map_append, List.map_cons, List.map_append]
            exact List.perm_middle
          exact hmid.trans (ih.cons _)

theorem any_map_fn {α β : Type} (l : List α) (f : α → β) (q : β → Bool) :
    (l.map f).any q = l.any (fun a => q (f a)) := by
  induction l with
  | nil => rfl
  | cons a rest ih => simp only [List.map_cons, List.any_cons, ih]

/-- Under pairwise-distinct 4-tuples, an original matches some removed
key exactly when its own index was removed. -/
theorem removedKeys_any_eq (records : List Rec) (idxs : List Nat)
    (hlt : ∀ i ∈ idxs, i < records.length)
    (hinj : ∀ i, i < records.length → ∀ j, j < records.length → i ≠ j →
      pyEqL (key4 (records.getD i [])) (key4 (records.getD j [])) = false)
    (j : Nat) (hj : j < records.length) :
    ((idxs.map (fun i => key4 (records.getD i []))).any
        (fun k => pyEqL (key4 (records.getD j [])) k)) = idxs.contains j := by
  rw [any_map_fn]
  by_cases hmem : j ∈ idxs
  · have hc : idxs.contains j = true := by simpa using hmem
    rw [hc]
    exact List.any_eq_true.mpr ⟨j, hmem, pyEqL_refl _⟩
  · have hc : idxs.contains j = false := by simpa using hmem
    rw [hc]
    refine List.any_eq_false.mpr ?_
    intro i hi
    have hne : j ≠ i := fun hh => hmem (hh ▸ hi)
    rw [hinj j hj i (hlt i hi) hne]
    exact Bool.false_ne_true

theorem filterRange_eq (records : List Rec) (q : Rec → Bool) :
    records.filter q = ((List.range records.length).filter
      (fun p => q (records.getD p []))).map (fun p => records.getD p []) := by
  conv_lhs => rw [← map_getD_range records []]
  rw [List.filter_map]
  rfl

/-- The removed keys together with the keys of the un-matched originals
are a permutation of all original keys. -/
theorem removed_filter_keys_perm (records : List Rec) (idxs : List Nat)
    (hnd : idxs.Nodup) (hlt : ∀ i ∈ idxs, i < records.length)
    (hinj : ∀ i, i < records.length → ∀ j, j < records.length → i ≠ j →
      pyEqL (key4 (records.getD i [])) (key4 (records.getD j [])) = false) :
    (idxs.map (fun i => key4 (records.getD i [])) ++
      (records.filter
        (fun r => !(idxs.map (fun i => key4 (records.getD i []))).any
          (fun k => pyEqL (key4 r) k))).map key4) ~ records.map key4 := by
  have hrec : (List.range records.length).map (fun p => records.getD p []) =
      records := map_getD_range records []
  have hfil : records.filter
      (fun r => !(idxs.map (fun i => key4 (records.getD i []))).any
        (fun k => pyEqL (key4 r) k)) =
      ((List.range records.length).filter (fun p => !idxs.contains p)).map
        (fun p => records.getD p []) := by
    rw [filterRange_eq records
      (fun r => !(idxs.map (fun i => key4 (records.getD i []))).any
        (fun k => pyEqL (key4 r) k))]
    refine congrArg _ (List.filter_congr ?_)
    intro p hp
    have hplt : p < records.length := List.mem_range.mp hp
    show (!(idxs.map (fun i => key4 (records.getD i []))).any
        (fun k => pyEqL (key4 (records.getD p [])) k)) = !idxs.contains p
    rw [removedKeys_any_eq records idxs hlt hinj p hplt]
  have hin : ((List.range records.length).filter
      (fun i => idxs.contains i)) ~ idxs := by
    refine perm_filter_mem_of_nodup _ _ (List.nodup_range _) hnd ?_
    intro x hx
    exact List.mem_range.mpr (hlt x hx)
  have hsplit : ((List.range records.length).filter
        (fun i => idxs.contains i) ++
      (List.range records.length).filter (fun i => !idxs.contains i)) ~
      List.range records.length := List.filter_append_perm _ _
  have h1 : (idxs ++
      (List.range records.length).filter (fun i => !idxs.contains i)) ~
      List.range records.length :=
    (hin.symm.append_right _).trans hsplit
  have hmain := (h1.map (fun p => records.getD p [])).map key4
  rw [hrec] at hmain
  rw [hfil, List.map_map]
  have hkey : idxs.map (fun i => key4 (records.getD i [])) ++
      ((List.range records.length).filter (fun i => !idxs.contains i)).map
        (key4 ∘ fun p => records.getD p []) =
      ((idxs ++
        (List.range records.length).filter (fun i => !idxs.contains i)).map
          (fun p => records.getD p [])).map key4 := by
    simp [Function.comp]
  rw [hkey]
  exact hmain

/-- C1 (amended): provided no two originals share the identity 4-tuple
(filename, cleaned_filename, batch, uploaded_at), the classifier's
`anomalies` and `ok` lists together cover every original exactly once:
the removed records appear first, each exactly once as a duplicate
anomaly, and the multiset of 4-tuples of `anomalies ++ ok` equals that
of the originals. Without that proviso the sweep's 4-tuple matching
silently drops every non-removed original that shares a tuple with a
removed one. -/
theorem dupFailClassify_cover (records : List Rec) (res : DedupOut)
    (anoms oks : List Rec)
    (hinj : ∀ i < records.length, ∀ j < records.length, i ≠ j →
      pyEqL (key4 (records.getD i [])) (key4 (records.getD j [])) = false)
    (hded : dedupRun records = .ok res)
    (hcls : dupFailClassify records = .ok (anoms, oks)) :
    anoms.take res.removed.length = res.removed.map annotateRemoved ∧
      ((anoms ++ oks).map key4) ~ (records.map key4) := by
  rw [dupFailClassify, hded] at hcls
  dsimp only at hcls
  injection hcls with hcls
  injection hcls with h1 h2
  have hrem : ∃ idxs : List Nat, idxs <+ (dedupGroups records).1.flatten ∧
      res.removed.map key4 = idxs.map (fun i => key4 (records.getD i [])) := by
    rw [dedupRun] at hded
    cases hr : runGroups records (dedupGroups records).1 with
    | error e => rw [hr] at hded; exact absurd hded (by simp)
    | ok t =>
      obtain ⟨fg, rg, hg⟩ := t
      rw [hr] at hded
      injection hded with hded
      obtain ⟨idxs, hsubl, hkeys⟩ := runGroups_removed records _ fg rg hg hr
      refine ⟨idxs, hsubl, ?_⟩
      rw [← hded]
      exact hkeys
  obtain ⟨idxs, hsubl, hkeys⟩ := hrem
  obtain ⟨hflnd, hfllt⟩ := dedupGroupsFlat_facts records
  have hnd : idxs.Nodup := hsubl.nodup hflnd
  have hlt : ∀ i ∈ idxs, i < records.length :=
    fun i hi => hfllt i (hsubl.subset hi)
  constructor
  · rw [← h1]
    exact List.take_left' (List.length_map _ _)
  · rw [← h1, ← h2, List.append_assoc, List.map_append, List.map_map]
    have hkann : res.removed.map (key4 ∘ annotateRemoved) =
        idxs.map (fun i => key4 (records.getD i [])) := by
      rw [← hkeys]
      refine List.map_congr_left ?_
      intro r hr
      exact key4_annotateRemoved r
    rw [hkann, hkeys]
    have hsw := classifySweep_keys_perm
      (idxs.map (fun i => key4 (records.getD i []))) records
    exact (List.Perm.append_left _ hsw).trans
      (removed_filter_keys_perm records idxs hnd hlt hinj)

def c1recA : Rec := [("filename", .s "a.csv"), ("status", .s "processed"), ("rows", .i 10)]

def c1recB : Rec := [("filename", .s "a.csv"), ("status", .s "processed"), ("rows", .i 20)]

/-- C1 counterexample: two originals sharing the full identity 4-tuple
(same filename, no cleaned_filename, batch or uploaded_at) form a
multi-processed duplicate group; the kept original matches the removed
set by its 4-tuple too, so the sweep skips BOTH originals and the
classifier emits a single output record for two originals — the
exactly-once cover fails. -/
theorem dupFailClassify_collision_drop :
    dupFailClassify [c1recA, c1recB] =
      .ok ([annotateRemoved (dictSet c1recA "dedupe_reason"
          (.s "multi_processed (keeper=a.csv)"))], []) ∧
      [c1recA, c1recB].length = 2 := ⟨rfl, rfl⟩

def c1wA : Rec :=
  [("filename", .s "a.csv"), ("batch", .s "b1"),
   ("status", .s "processed"), ("rows", .i 10)]

def c1wB : Rec :=
  [("filename", .s "a.csv"), ("batch", .s "b2"),
   ("status", .s "processed"), ("rows", .i 20)]

def c1wC : Rec := [("filename", .s "c.csv"), ("status", .s "failed")]

def c1wrecs : List Rec := [c1wA, c1wB, c1wC]

def c1wres : DedupOut :=
  ⟨[c1wC, c1wB],
   [dictSet c1wA "dedupe_reason" (.s "multi_processed (keeper=a.csv)")], []⟩

def c1wanoms : List Rec :=
  [annotateRemoved
    (dictSet c1wA "dedupe_reason" (.s "multi_processed (keeper=a.csv)")),
   annotateStatus c1wC]

def c1woks : List Rec := [c1wB]

theorem dupFailClassify_cover_witness :
    (∀ i < c1wrecs.length, ∀ j < c1wrecs.length, i ≠ j →
      pyEqL (key4 (c1wrecs.getD i [])) (key4 (c1wrecs.getD j [])) = false) ∧
    dedupRun c1wrecs = .ok c1wres ∧
    dupFailClassify c1wrecs = .ok (c1wanoms, c1woks) ∧
    (c1wanoms.take c1wres.removed.length =
        c1wres.removed.map annotateRemoved ∧
      ((c1wanoms ++ c1woks).map key4) ~ (c1wrecs.map key4)) :=
  ⟨by decide, rfl, rfl,
    dupFailClassify_cover c1wrecs c1wres c1wanoms c1woks (by decide) rfl rfl⟩
